import Mathlib

/-!
Verification development for the climate-data download tool (`src/app.py`).

The program is a single-page interactive application around a small
data-transform core: a unit converter, a decade/scenario date clamper,
a point time-series fetcher over a remote raster catalog, a multi-model
ensemble aggregator, and a CSV artifact packager.  This file gives a
shallow embedding of that core, translated from the source, and proves
(or refutes) the specified properties about it.

Modelling conventions:
* Python floats are modelled as rationals (`ℚ`); the numeric claims are
  about the exact arithmetic the source performs.
* `pandas` timestamps are modelled as calendar dates (`Date` below);
  date strings are parsed and re-rendered exactly as the `YYYY-MM-DD`
  shapes the program feeds through `pd.to_datetime`/`strftime`.
* Remote calls are modelled by their observable outcomes: each
  `getInfo()` call either raises (`Except.error`) or returns a value.
* A `pandas` data frame of observation records is modelled as a list of
  records together with (where the claims need it) its column order.
-/

/-! ### Decimal digit rendering and parsing (character level) -/

/-- The character for a single decimal digit `d < 10`. -/
def digitChar (d : Nat) : Char := Char.ofNat (48 + d)

/-- The numeric value of a decimal digit character, `none` on non-digits. -/
def digitVal (c : Char) : Option Nat :=
  if 48 ≤ c.toNat ∧ c.toNat ≤ 57 then some (c.toNat - 48) else none

/-- Little-endian decimal digits of `n`, with explicit fuel (fuel `≥ n` suffices). -/
def natDigitsRev : Nat → Nat → List Nat
  | 0, _ => []
  | _ + 1, 0 => []
  | fuel + 1, n + 1 => ((n + 1) % 10) :: natDigitsRev fuel ((n + 1) / 10)

/-- The number denoted by a little-endian digit list. -/
def ofDigitsRev : List Nat → Nat
  | [] => 0
  | d :: ds => d + 10 * ofDigitsRev ds

/-- Decimal rendering of a natural number, most significant digit first. -/
def renderNat (n : Nat) : List Char :=
  if n = 0 then ['0'] else ((natDigitsRev n n).reverse).map digitChar

/-- Left-pad a character list with `'0'` up to width `k`. -/
def padZeros (k : Nat) (cs : List Char) : List Char :=
  List.replicate (k - cs.length) '0' ++ cs

/-- Accumulator loop of decimal parsing (the fold `String.toNat?` performs). -/
def parseNatAux : Nat → List Char → Option Nat
  | acc, [] => some acc
  | acc, c :: cs =>
    match digitVal c with
    | some d => parseNatAux (acc * 10 + d) cs
    | none => none

/-- Parse a nonempty all-digit character list as a natural number. -/
def parseNat (cs : List Char) : Option Nat :=
  if cs.isEmpty then none else parseNatAux 0 cs

/-! ### Calendar dates

`pd.Timestamp` values are calendar dates here; the program only ever
builds them from `YYYY-MM-DD` strings and compares / min-maxes them
chronologically, which for valid dates coincides with the lexicographic
order of the `(year, month, day)` triple, i.e. of `Date.key`. -/

/-- A calendar date, as `pd.to_datetime` produces from a `YYYY-MM-DD` string. -/
structure Date where
  year : Nat
  month : Nat
  day : Nat
deriving DecidableEq, Repr

/-- Numeric key realizing the chronological order of valid dates. -/
def Date.key (d : Date) : Nat := d.year * 10000 + d.month * 100 + d.day

/-- Python `max` on two timestamps (returns the first argument on ties). -/
def dmax (a b : Date) : Date := if b.key ≤ a.key then a else b

/-- Python `min` on two timestamps (returns the first argument on ties). -/
def dmin (a b : Date) : Date := if a.key ≤ b.key then a else b

/-- Gregorian leap-year rule. -/
def isLeap (y : Nat) : Bool := (y % 4 == 0 && y % 100 != 0) || (y % 400 == 0)

/-- Number of days in a month. -/
def daysInMonth (y m : Nat) : Nat :=
  if m = 2 then (if isLeap y then 29 else 28)
  else if m ∈ [4, 6, 9, 11] then 30 else 31

/-- The validity check `pd.to_datetime` applies to a `Y-M-D` component triple. -/
def validDate (d : Date) : Bool :=
  1 ≤ d.month && d.month ≤ 12 && 1 ≤ d.day && d.day ≤ daysInMonth d.year d.month

/-- Split a character list at every occurrence of the separator `sep`. -/
def splitSepAux (sep : Char) : List Char → List Char → List (List Char)
  | acc, [] => [acc.reverse]
  | acc, c :: cs =>
    if c = sep then acc.reverse :: splitSepAux sep [] cs
    else splitSepAux sep (c :: acc) cs

/-- Split a character list on a separator character (as `str.split` does). -/
def splitSep (sep : Char) (cs : List Char) : List (List Char) :=
  splitSepAux sep [] cs

/-- Parse a `YYYY-MM-DD` string into a date, validating the components as
`pd.to_datetime` does (an unparsable string makes `pd.to_datetime` raise,
modelled as `none`; the theorems below only feed parseable date strings). -/
def parseDate (s : String) : Option Date :=
  match splitSep '-' s.data with
  | [ys, ms, ds] =>
    match parseNat ys, parseNat ms, parseNat ds with
    | some y, some m, some d =>
      let dt : Date := ⟨y, m, d⟩
      if validDate dt then some dt else none
    | _, _, _ => none
  | _ => none

/-- Render a date as `strftime("%Y-%m-%d")` does (zero-padded components). -/
def formatDate (d : Date) : String :=
  ⟨padZeros 4 (renderNat d.year) ++ '-' :: (padZeros 2 (renderNat d.month) ++ '-' :: padZeros 2 (renderNat d.day))⟩

/-! ### Unit converter (`convert_units`, src/app.py lines 77-88) -/

/-- Convert from raw NASA/GDDP units to user-friendly units:
temperature bands drop 273.15 (Kelvin to Celsius), precipitation is scaled
by 86400 (kg·m⁻²·s⁻¹ to mm/day), everything else passes through. -/
def convert_units (band : String) (value : ℚ) : ℚ :=
  if band ∈ ["tas", "tasmax", "tasmin"] then value - 273.15
  else if band = "pr" then value * 86400
  else value

/-! ### Date range clamper (`clamp_dates_for_scenario`, src/app.py lines 582-594) -/

/-- Lower bound of the valid window for a scenario. -/
def scenLo (scenario : String) : Date :=
  if scenario = "historical" then ⟨1950, 1, 1⟩ else ⟨2015, 1, 1⟩

/-- Upper bound of the valid window for a scenario. -/
def scenHi (scenario : String) : Date :=
  if scenario = "historical" then ⟨2014, 12, 31⟩ else ⟨2100, 12, 31⟩

/-- Date-level core of the clamper: intersect the requested window with the
scenario's valid window, `none` when the intersection is empty. -/
def clampD (sdt edt : Date) (scenario : String) : Option (Date × Date) :=
  if (dmin edt (scenHi scenario)).key < (dmax sdt (scenLo scenario)).key then none
  else some (dmax sdt (scenLo scenario), dmin edt (scenHi scenario))

/-- Clamp dates to historical (1950-2014) or SSP (2015-2100); the string
wrapper parses the inputs as `pd.to_datetime` and renders the results as
`strftime("%Y-%m-%d")`.  The null pair return is modelled as `none`. -/
def clamp_dates_for_scenario (start_date end_date scenario : String) : Option (String × String) :=
  match parseDate start_date, parseDate end_date with
  | some sdt, some edt =>
    (clampD sdt edt scenario).map (fun p => (formatDate p.1, formatDate p.2))
  | _, _ => none

/-! ### Observation records and the fetcher (`fetch_point_timeseries`, src/app.py lines 597-684)

A record is one row of the tidy table: `{date, band, value, model, scenario}`.
The remote catalog is abstracted by its observable outcomes: the three
`getInfo()` calls the fetcher makes either raise or return a value.  Data
cells of a `getRegion` row are JSON `null`, a number, or a string (a
non-numeric string makes Python's `float()` raise; numeric strings are
subsumed by the numeric case). -/

/-- One observation record (one row of the tidy per-date/per-band table). -/
structure Rec where
  date : String
  band : String
  value : ℚ
  model : String
  scenario : String
deriving DecidableEq, Repr

/-- One cell of a `getRegion` response row. -/
inductive Cell where
  | null : Cell
  | num : ℚ → Cell
  | str : String → Cell
deriving DecidableEq, Repr

/-- Outcomes of the three remote calls one fetch makes: the collection size
probe, the band-name listing of the first image, and the `getRegion` array
(whose first element is the header row).  The query parameters (point,
model, scenario, date range, scale) are absorbed into this abstraction. -/
structure RemoteResponse where
  collSize : Except Unit Nat
  bandNames : Except Unit (List String)
  region : Except Unit (List (List Cell))

/-- Gregorian date of a day count relative to 1970-01-01 (civil-from-days). -/
def civilFromDays (z0 : Int) : Date :=
  let z := z0 + 719468
  let era : Int := (if 0 ≤ z then z else z - 146096) / 146097
  let doe : Int := z - era * 146097
  let yoe : Int := (doe - doe / 1460 + doe / 36524 - doe / 146096) / 365
  let y : Int := yoe + era * 400
  let doy : Int := doe - (365 * yoe + yoe / 4 - yoe / 100)
  let mp : Int := (5 * doy + 2) / 153
  let d : Int := doy - (153 * mp + 2) / 5 + 1
  let m : Int := mp + (if mp < 10 then 3 else -9)
  ⟨(y + (if m ≤ 2 then 1 else 0)).toNat, m.toNat, d.toNat⟩

/-- Whole days since the epoch of an epoch-milliseconds value (the `.date()`
truncation of `pd.to_datetime(ms, unit='ms', utc=True)`). -/
def msFloorDays (q : ℚ) : Int := Int.fdiv q.num (q.den * 86400000)

/-- ISO date string of an epoch-milliseconds timestamp value. -/
def msToDateStr (q : ℚ) : String := formatDate (civilFromDays (msFloorDays q))

/-- Date derived from a row's `time` cell; `none` when the guarded
`pd.to_datetime` conversion raises (missing cell, null, or non-number),
which makes the loop `continue` to the next row. -/
def rowDate (time_idx : Nat) (row : List Cell) : Option String :=
  match row[time_idx]? with
  | some (Cell.num q) => some (msToDateStr q)
  | _ => none

/-- The inner band loop over one data row: for each band present in the
header, read the cell at the band's header position — a missing cell is an
uncaught `IndexError` and a non-numeric string an uncaught `ValueError`
(`Except.error`); a `null` cell is skipped; a number produces a record with
the converted value. -/
def rowBandRecs (header row : List Cell) (model scenario date_str : String) :
    List String → Except Unit (List Rec)
  | [] => .ok []
  | b :: bs =>
    match header.findIdx? (fun c => c == Cell.str b) with
    | none => rowBandRecs header row model scenario date_str bs
    | some idx =>
      match row[idx]? with
      | none => .error ()
      | some Cell.null => rowBandRecs header row model scenario date_str bs
      | some (Cell.str _) => .error ()
      | some (Cell.num q) =>
        match rowBandRecs header row model scenario date_str bs with
        | .error e => .error e
        | .ok rest => .ok (⟨date_str, b, convert_units b q, model, scenario⟩ :: rest)

/-- Records contributed by one data row (none when its timestamp is bad). -/
def rowRecs (header : List Cell) (time_idx : Nat) (btf : List String)
    (model scenario : String) (row : List Cell) : Except Unit (List Rec) :=
  match rowDate time_idx row with
  | none => .ok []
  | some d => rowBandRecs header row model scenario d btf

/-- The record loop over all data rows; an exception in any row aborts. -/
def allRowRecs (header : List Cell) (time_idx : Nat) (btf : List String)
    (model scenario : String) : List (List Cell) → Except Unit (List Rec)
  | [] => .ok []
  | r :: rs =>
    match rowRecs header time_idx btf model scenario r with
    | .error e => .error e
    | .ok l =>
      match allRowRecs header time_idx btf model scenario rs with
      | .error e => .error e
      | .ok ls => .ok (l ++ ls)

/-- The `getRegion` stage of the fetcher: a raised call, a short array, or a
header without a `time` column all degrade to the empty table. -/
def fetchRegion (bands_to_fetch : List String) (model scenario : String)
    (rg : Except Unit (List (List Cell))) : Except Unit (List Rec) :=
  match rg with
  | .error _ => .ok []
  | .ok arr =>
    if arr.length < 2 then .ok []
    else
      let header := arr.headD []
      match header.findIdx? (fun c => c == Cell.str "time") with
      | none => .ok []
      | some time_idx => allRowRecs header time_idx bands_to_fetch model scenario arr.tail

/-- Fetch a daily point time series: size probe (raise or zero size yields
the empty table), band availability filtering (a raised probe falls back to
all requested bands, an empty available subset yields the empty table),
then the `getRegion` row extraction. `Except.error` is an exception
escaping the fetcher. -/
def fetch_point_timeseries (bands : List String) (model scenario : String)
    (resp : RemoteResponse) : Except Unit (List Rec) :=
  match resp.collSize with
  | .error _ => .ok []
  | .ok n =>
    if n = 0 then .ok []
    else
      match resp.bandNames with
      | .ok avail =>
        let bands_to_fetch := bands.filter (fun b => decide (b ∈ avail))
        if bands_to_fetch.isEmpty then .ok []
        else fetchRegion bands_to_fetch model scenario resp.region
      | .error _ => fetchRegion bands model scenario resp.region

/-! ### Ensemble aggregator (src/app.py lines 888-907) -/

/-- The `(scenario, band)` slice of the combined multi-model table. -/
def subsetFor (table : List Rec) (scenario band : String) : List Rec :=
  table.filter (fun r => r.scenario == scenario && r.band == band)

/-- Sum of the `value` column. -/
def sumValues (l : List Rec) : ℚ := (l.map Rec.value).sum

/-- The sorted distinct dates of a slice (the `groupby("date")` keys). -/
def datesSorted (subset : List Rec) : List String :=
  ((subset.map Rec.date).dedup).mergeSort (fun a b => decide (a ≤ b))

/-- The rows of a slice carrying a given date (one `groupby` group). -/
def grpFor (subset : List Rec) (d : String) : List Rec :=
  subset.filter (fun r => r.date == d)

/-- The `ENSEMBLE-MEAN` record of one date group: the arithmetic mean of
`value` over the group's rows. -/
def ensembleRec (subset : List Rec) (scenario band d : String) : Rec :=
  ⟨d, band, sumValues (grpFor subset d) / ((grpFor subset d).length : ℚ),
    "ENSEMBLE-MEAN", scenario⟩

/-- Per-`(scenario, band)` ensemble frame: group the slice by date and take
the arithmetic mean of `value` across the rows of each date, emitting one
`ENSEMBLE-MEAN` record per date; an empty slice contributes nothing. -/
def ensembleFor (table : List Rec) (scenario band : String) : List Rec :=
  if (subsetFor table scenario band).isEmpty then []
  else
    (datesSorted (subsetFor table scenario band)).map
      (ensembleRec (subsetFor table scenario band) scenario band)

/-- All ensemble frames, in the scenario-major, band-minor loop order. -/
def ensembleAll (all_data : List Rec) (sel_scen sel_bands : List String) : List Rec :=
  (sel_scen.map (fun scenario =>
    (sel_bands.map (fun band => ensembleFor all_data scenario band)).flatten)).flatten

/-! ### Table sorting (`sort_values(["band","model","scenario","date"])`) -/

/-- The lexicographic `(band, model, scenario, date)` comparison used by
`sort_values(["band", "model", "scenario", "date"])`. -/
def recLe (a b : Rec) : Bool :=
  decide (a.band < b.band) || (a.band == b.band &&
    (decide (a.model < b.model) || (a.model == b.model &&
      (decide (a.scenario < b.scenario) || (a.scenario == b.scenario &&
        decide (a.date ≤ b.date))))))

/-- Sorting of the tidy table. -/
def sortTable (t : List Rec) : List Rec := t.mergeSort recLe

/-! ### Output frames and the download artifact (src/app.py lines 877-916 and 986-1100)

The claims about the artifact depend on the data frame's column order, so a
frame is modelled as its column-name list together with its records.
Concatenation aligns columns by name, keeping the first frame's order and
appending unseen columns — the `pd.concat` rule. -/

/-- A pandas data frame of observation records: column order plus rows. -/
structure Frame where
  cols : List String
  recs : List Rec

/-- Column order of frames built by `pd.DataFrame.from_records` in the
fetcher: the dict-key order `date, band, value, model, scenario`. -/
def canonicalCols : List String := ["date", "band", "value", "model", "scenario"]

/-- Column order of the ensemble frame: `groupby("date")["value"].mean()`
then `reset_index()` yields `date, value`, and the three assignments append
`band`, `model`, `scenario`. -/
def ensembleCols : List String := ["date", "value", "band", "model", "scenario"]

/-- Fractional decimal digits of `rem/den` (`0 < rem < den`), emitted until
the remainder vanishes or the fuel (ample for double-precision values that
survive formatting) runs out. -/
def fracDigits : Nat → Nat → Nat → List Char
  | _, _, 0 => []
  | rem, den, fuel + 1 =>
    let r10 := rem * 10
    let dig := r10 / den
    let rem2 := r10 % den
    if rem2 = 0 then [digitChar dig] else digitChar dig :: fracDigits rem2 den fuel

/-- Decimal rendering of a value, as `str(float)` renders the values the
program produces: optional sign, integer part, a dot, and at least one
fractional digit (`15.0` for whole numbers). -/
def fmtRat (q : ℚ) : List Char :=
  let sign : List Char := if q.num < 0 then ['-'] else []
  let n := q.num.natAbs
  let ip := n / q.den
  let rem := n % q.den
  sign ++ renderNat ip ++ '.' :: (if rem = 0 then ['0'] else fracDigits rem q.den 30)

/-- Interleave a separator character between chunks (`sep.join`). -/
def sepJoin (sep : Char) : List (List Char) → List Char
  | [] => []
  | [x] => x
  | x :: xs => x ++ sep :: sepJoin sep xs

/-- The serialized field of a record for a named column. -/
def fieldChars (r : Rec) (c : String) : List Char :=
  if c = "date" then r.date.data
  else if c = "band" then r.band.data
  else if c = "value" then fmtRat r.value
  else if c = "model" then r.model.data
  else if c = "scenario" then r.scenario.data
  else []

/-- One CSV data row in the frame's column order. -/
def rowChars (cols : List String) (r : Rec) : List Char :=
  sepJoin ',' (cols.map (fieldChars r))

/-- `to_csv(index=False)`: header row then one newline-terminated data row
per record. -/
def csvChars (f : Frame) : List Char :=
  sepJoin ',' (f.cols.map String.data) ++ '\n' ::
    (f.recs.map (fun r => rowChars f.cols r ++ ['\n'])).flatten

/-- The `#`-prefixed separator rule of the metadata block: `"# "` followed
by 76 equals signs. -/
def metaRule : String := "# " ++ String.mk (List.replicate 76 '=')

/-- The fixed opening block of `create_metadata` (src/app.py lines
995-1026), with the location / place / generation-time interpolations. -/
def metaBaseLines (latS lonS locName genTime : String) : List String := [
    metaRule,
    "# NASA/GDDP-CMIP6 Climate Data Download",
    metaRule,
    "# Location: " ++ latS ++ "°N, " ++ lonS ++ "°E",
    "# Place: " ++ locName,
    "# Generated: " ++ genTime,
    "# ",
    "# DATA COLUMNS:",
    "#   date      - Date in YYYY-MM-DD format",
    "#   band      - Climate variable (see VARIABLES section below)",
    "#   model     - Climate model name (or ENSEMBLE-MEAN)",
    "#   scenario  - Emissions scenario (historical, ssp245, ssp585)",
    "#   value     - Measured value in units specified below",
    "# ",
    "# VARIABLES & UNITS (converted from raw NASA data):",
    "#   tas       - Daily Mean Temperature (°C)",
    "#   tasmax    - Daily Maximum Temperature (°C)",
    "#   tasmin    - Daily Minimum Temperature (°C)",
    "#   pr        - Precipitation (mm/day)",
    "#   hurs      - Near-Surface Relative Humidity (%)",
    "#   huss      - Near-Surface Specific Humidity (kg/kg)",
    "#   rsds      - Surface Downwelling Shortwave Radiation (W/m²)",
    "#   rlds      - Surface Downwelling Longwave Radiation (W/m²)",
    "#   sfcWind   - Near-Surface Wind Speed (m/s)",
    "# ",
    "# SCENARIOS:",
    "#   historical - Historical observations (1950-2014)",
    "#   ssp245     - SSP2-4.5: Medium emissions / Current policies trajectory",
    "#   ssp585     - SSP5-8.5: High emissions / Business as usual",
    "# "]

/-- The conditional model block of `create_metadata` (src/app.py lines
1028-1054). -/
def metaModelLines (models_included : List String) : List String :=
  if models_included.isEmpty then []
  else if "ENSEMBLE-MEAN" ∈ models_included ∧ 1 < models_included.length then
    ["# MODELS:",
     "#   This file includes "
       ++ toString (models_included.filter (fun m => m ≠ "ENSEMBLE-MEAN")).length
       ++ " climate models:"]
      ++ (models_included.filter (fun m => m ≠ "ENSEMBLE-MEAN")).map (fun m => "#     • " ++ m)
      ++ ["# ",
          "#   ENSEMBLE-MEAN is the arithmetic average across all models",
          "#   for each date, variable, and scenario combination.",
          "# "]
  else if models_included.length = 1 ∧ models_included.headD "" ≠ "ENSEMBLE-MEAN" then
    ["# MODEL:", "#   " ++ models_included.headD "", "# "]
  else if models_included = ["ENSEMBLE-MEAN"] then
    ["# MODEL:", "#   ENSEMBLE-MEAN (multi-model average)", "# "]
  else []

/-- The closing data-source block of `create_metadata` (src/app.py lines
1056-1064). -/
def metaClosingLines : List String := [
    "# DATA SOURCE:",
    "#   NASA Earth Exchange Global Daily Downscaled Climate Projections",
    "#   (NEX-GDDP-CMIP6)",
    "#   Resolution: 0.25° (~25 km)",
    "#   More info: https://www.nccs.nasa.gov/services/data-collections/land-based-products/nex-gddp-cmip6",
    metaRule,
    "#"]

/-- The metadata lines of `create_metadata` (src/app.py lines 994-1065). -/
def create_metadata_lines (latS lonS locName genTime : String)
    (models_included : List String) : List String :=
  metaBaseLines latS lonS locName genTime ++ metaModelLines models_included ++ metaClosingLines

/-- `"\n".join(lines) + "\n"`. -/
def metadataChars (lines : List String) : List Char :=
  sepJoin '\n' (lines.map String.data) ++ ['\n']

/-- A download artifact body: metadata text followed by the CSV text. -/
def artifactChars (metaLines : List String) (f : Frame) : List Char :=
  metadataChars metaLines ++ csvChars f

/-- `pd.concat` column alignment: the first frame's columns, then unseen
column names in order of appearance. -/
def colsUnion (css : List (List String)) : List String :=
  css.foldl (fun acc cs => acc ++ cs.filter (fun c => decide (c ∉ acc))) []

/-- `pd.concat` of frames. -/
def concatFrames (fs : List Frame) : Frame :=
  ⟨colsUnion (fs.map Frame.cols), (fs.map Frame.recs).flatten⟩

/-- `sort_values(["band","model","scenario","date"])` on a frame. -/
def sortFrame (f : Frame) : Frame := ⟨f.cols, sortTable f.recs⟩

/-- The combined `all_data` frame (src/app.py lines 877-878): fetched
frames concatenated and sorted; each fetched frame has the canonical
`from_records` column order. -/
def allDataFrame (frames : List (List Rec)) : Frame :=
  ⟨canonicalCols, sortTable frames.flatten⟩

/-- The final output frame (src/app.py lines 880-916): the individual
models frame when requested, the ensemble frame when requested with more
than one selected model and nonempty, concatenated and sorted. -/
def outFrame (frames : List (List Rec)) (sel_scen sel_bands sel_models : List String)
    (incInd incEns : Bool) : Frame :=
  let all_data := allDataFrame frames
  let ensRecs := ensembleAll all_data.recs sel_scen sel_bands
  let outputFrames :=
    (if incInd then [all_data] else []) ++
    (if incEns && decide (1 < sel_models.length) && !ensRecs.isEmpty
     then [⟨ensembleCols, ensRecs⟩] else [])
  sortFrame (concatFrames outputFrames)

/-! ### Parsing an artifact back (the round-trip direction) -/

/-- Drop the final empty chunk a trailing newline produces. -/
def dropTrailingBlank (ls : List (List Char)) : List (List Char) :=
  if ls.getLast? = some [] then ls.dropLast else ls

/-- Parse an unsigned decimal numeral (integer part, optional dot and
fractional part). -/
def parseUDec (cs : List Char) : Option ℚ :=
  match splitSep '.' cs with
  | [ip] => (parseNat ip).map (fun n => (n : ℚ))
  | [ip, fp] =>
    match parseNat ip, parseNat fp with
    | some i, some f => some ((i : ℚ) + (f : ℚ) / (10 : ℚ) ^ fp.length)
    | _, _ => none
  | _ => none

/-- Parse a signed decimal numeral. -/
def parseDec (cs : List Char) : Option ℚ :=
  match cs with
  | '-' :: rest => (parseUDec rest).map (fun q => -q)
  | _ => parseUDec cs

/-- Parse one CSV data row in the documented column order
`date,band,value,model,scenario`. -/
def parseRowChars (cs : List Char) : Option Rec :=
  match splitSep ',' cs with
  | [d, b, v, m, s] =>
    match parseDec v with
    | some q => some ⟨⟨d⟩, ⟨b⟩, q, ⟨m⟩, ⟨s⟩⟩
    | none => none
  | _ => none

/-- Parse every data row, failing if any row fails. -/
def parseRows : List (List Char) → Option (List Rec)
  | [] => some []
  | r :: rs =>
    match parseRowChars r, parseRows rs with
    | some rec, some recs => some (rec :: recs)
    | _, _ => none

/-- Parse an artifact body: split into lines, discard the trailing blank,
discard the comment-prefixed metadata block, discard the header row, and
parse the data rows. -/
def parseArtifact (cs : List Char) : Option (List Rec) :=
  let ls := dropTrailingBlank (splitSep '\n' cs)
  let body := ls.filter (fun l => !(l.head? == some '#'))
  match body with
  | [] => none
  | _hdr :: rows => parseRows rows

/-! ### Selection validation and the fetch sweep (src/app.py lines 765-835) -/

/-- The pre-sweep validation chain of `main`, in source order; `some msg`
is the user-facing error that aborts the sweep. -/
def validateSelection (sel_bands sel_models sel_scen : List String)
    (decades : List (String × String)) (incInd incEns : Bool) : Option String :=
  if sel_bands.isEmpty then some "Please select at least one variable (band)."
  else if sel_models.isEmpty then some "Please select at least one model."
  else if sel_scen.isEmpty then some "Please select at least one scenario."
  else if decades.isEmpty then some "Please select at least one decade."
  else if !incInd && !incEns then
    some "Please select at least one output option (Individual Models or Ensemble Mean)."
  else if incEns && decide (sel_models.length < 2) then
    some "Ensemble mean requires at least 2 models. Either select more models or disable ensemble mean."
  else none

/-- The `fetch_point_timeseries` invocations of the sweep loop, in loop
order: per scenario, per decade window (skipped entirely when the clamper
reports an incompatible range), per model; each call is recorded as
`(model, scenario, adjusted start, adjusted end)`. -/
def sweepFetchCalls (sel_scen : List String) (date_ranges : List (String × String))
    (sel_models : List String) : List (String × String × String × String) :=
  (sel_scen.map (fun scenario =>
    (date_ranges.map (fun se =>
      match clamp_dates_for_scenario se.1 se.2 scenario with
      | some (s_adj, e_adj) => sel_models.map (fun model => (model, scenario, s_adj, e_adj))
      | none => [])).flatten)).flatten

/-- The fetch sweep: validation first; `Except.error msg` aborts before any
remote call, `Except.ok calls` lists the remote calls then made. -/
def runSweep (sel_bands sel_models sel_scen : List String)
    (decades : List (String × String)) (incInd incEns : Bool) :
    Except String (List (String × String × String × String)) :=
  match validateSelection sel_bands sel_models sel_scen decades incInd incEns with
  | some msg => .error msg
  | none => .ok (sweepFetchCalls sel_scen decades sel_models)

/-- Whether a fetched cell is JSON `null` or a number — the cells on which
the record loop cannot raise. -/
def cellNumOrNull : Option Cell → Bool
  | some Cell.null => true
  | some (Cell.num _) => true
  | _ => false

/-- A data row is loop-safe for a band list when, at every requested band's
header position, it carries a null-or-numeric cell. -/
def rowCellsOk (header : List Cell) (bands : List String) (row : List Cell) : Bool :=
  bands.all (fun b =>
    match header.findIdx? (fun c => c == Cell.str b) with
    | some i => cellNumOrNull (row[i]?)
    | none => true)

/-- Whether an optional cell is a number converting to the given value for
the given band. -/
def cellMatch (b : String) (v : ℚ) : Option Cell → Bool
  | some (Cell.num q) => convert_units b q == v
  | _ => false

/-! ### Concrete example inputs used by witnesses and counterexamples -/

/-- A two-model table for one date, variable and scenario (the
specification's aggregation example: values 10 and 20). -/
def exTable : List Rec :=
  [⟨"2000-01-01", "tas", 10, "ACCESS-ESM1-5", "ssp245"⟩,
   ⟨"2000-01-01", "tas", 20, "CanESM5", "ssp245"⟩]

/-- The final output frame of an ensemble-only run (individual models
excluded) over `exTable`. -/
def ensOnlyFrame : Frame :=
  outFrame [exTable] ["ssp245"] ["tas"] ["ACCESS-ESM1-5", "CanESM5"] false true

/-- A malformed remote response whose single data row is shorter than the
header: the `pr` column exists in the header at position 1 but the row has
only one cell. -/
def shortRowResp : RemoteResponse :=
  ⟨.ok 1, .ok ["pr"], .ok [[Cell.str "time", Cell.str "pr"], [Cell.num 0]]⟩

/-- A well-formed remote response offering three of five requested bands,
with one data row at epoch time 0. -/
def subsetResp : RemoteResponse :=
  ⟨.ok 1, .ok ["tas", "tasmax", "pr"],
   .ok [[Cell.str "time", Cell.str "tas", Cell.str "tasmax", Cell.str "pr"],
        [Cell.num 0, Cell.num 280, Cell.num 290, Cell.num 2]]⟩

/-! ### Digit round-trip lemmas -/

theorem ofDigitsRev_natDigitsRev : ∀ (fuel n : Nat), n ≤ fuel →
    ofDigitsRev (natDigitsRev fuel n) = n := by
  intro fuel
  induction fuel with
  | zero =>
    intro n hn
    interval_cases n
    rfl
  | succ fuel ih =>
    intro n hn
    match n with
    | 0 => rfl
    | n + 1 =>
      have hdiv : (n + 1) / 10 ≤ fuel := by
        have h1 : (n + 1) / 10 < n + 1 := Nat.div_lt_self (Nat.succ_pos n) (by norm_num)
        omega
      show ((n + 1) % 10) + 10 * ofDigitsRev (natDigitsRev fuel ((n + 1) / 10)) = n + 1
      rw [ih _ hdiv]
      omega

theorem natDigitsRev_lt_ten : ∀ (fuel n : Nat), ∀ d ∈ natDigitsRev fuel n, d < 10 := by
  intro fuel
  induction fuel with
  | zero => intro n d hd; simp [natDigitsRev] at hd
  | succ fuel ih =>
    intro n d hd
    match n with
    | 0 => simp [natDigitsRev] at hd
    | n + 1 =>
      simp only [natDigitsRev, List.mem_cons] at hd
      rcases hd with h | h
      · subst h; exact Nat.mod_lt _ (by norm_num)
      · exact ih _ _ h

theorem digitVal_digitChar {d : Nat} (hd : d < 10) : digitVal (digitChar d) = some d := by
  interval_cases d <;> decide

theorem digitVal_isSome_of_renderNat (n : Nat) : ∀ c ∈ renderNat n, (digitVal c).isSome := by
  intro c hc
  unfold renderNat at hc
  split at hc
  · simp at hc; subst hc; decide
  · simp only [List.mem_map, List.mem_reverse] at hc
    obtain ⟨d, hd, rfl⟩ := hc
    rw [digitVal_digitChar (natDigitsRev_lt_ten n n d hd)]
    rfl

theorem digitVal_isSome_of_padZeros {k : Nat} {cs : List Char}
    (h : ∀ c ∈ cs, (digitVal c).isSome) : ∀ c ∈ padZeros k cs, (digitVal c).isSome := by
  intro c hc
  rcases List.mem_append.1 hc with h0 | h1
  · have := List.eq_of_mem_replicate h0
    subst this; decide
  · exact h c h1

theorem parseNatAux_eq_foldl : ∀ (cs : List Char) (acc : Nat),
    (∀ c ∈ cs, (digitVal c).isSome) →
    parseNatAux acc cs = some (cs.foldl (fun a c => a * 10 + ((digitVal c).getD 0)) acc) := by
  intro cs
  induction cs with
  | nil => intro acc _; rfl
  | cons c cs ih =>
    intro acc hall
    have hc : (digitVal c).isSome := hall c (List.mem_cons_self _ _)
    obtain ⟨d, hd⟩ := Option.isSome_iff_exists.1 hc
    simp only [parseNatAux, hd, List.foldl_cons]
    rw [ih _ (fun x hx => hall x (List.mem_cons_of_mem _ hx))]
    simp [hd]

theorem foldl_digits_reverse : ∀ (ds : List Nat) (acc : Nat), (∀ d ∈ ds, d < 10) →
    (ds.reverse.map digitChar).foldl (fun a c => a * 10 + ((digitVal c).getD 0)) acc
      = acc * 10 ^ ds.length + ofDigitsRev ds := by
  intro ds
  induction ds with
  | nil => intro acc _; simp [ofDigitsRev]
  | cons d ds ih =>
    intro acc hall
    have hd : d < 10 := hall d (List.mem_cons_self _ _)
    simp only [List.reverse_cons, List.map_append, List.foldl_append, List.map_cons,
      List.map_nil, List.foldl_cons, List.foldl_nil]
    rw [ih acc (fun x hx => hall x (List.mem_cons_of_mem _ hx))]
    rw [digitVal_digitChar hd]
    simp only [Option.getD_some, ofDigitsRev, List.length_cons]
    ring

theorem parseNatAux_replicate_zero : ∀ (k : Nat) (cs : List Char),
    parseNatAux 0 (List.replicate k '0' ++ cs) = parseNatAux 0 cs := by
  intro k
  induction k with
  | zero => intro cs; rfl
  | succ k ih =>
    intro cs
    show parseNatAux (0 * 10 + ((digitVal '0').getD 0)) _ = _
    simpa using ih cs

theorem renderNat_ne_nil (n : Nat) : renderNat n ≠ [] := by
  unfold renderNat
  split
  · simp
  · next h =>
    match hn : n, h with
    | n + 1, _ =>
      simp [natDigitsRev]

/-- Parsing a zero-padded decimal rendering recovers the number. -/
theorem parseNat_padZeros_renderNat (k n : Nat) :
    parseNat (padZeros k (renderNat n)) = some n := by
  have hne : ¬ (padZeros k (renderNat n)).isEmpty := by
    simp only [padZeros, List.isEmpty_iff, List.append_eq_nil]
    intro ⟨_, h⟩
    exact renderNat_ne_nil n h
  unfold parseNat padZeros
  rw [if_neg (by simpa [padZeros] using hne)]
  rw [parseNatAux_replicate_zero]
  rw [parseNatAux_eq_foldl _ _ (digitVal_isSome_of_renderNat n)]
  unfold renderNat
  split
  · next h => subst h; rfl
  · next h =>
    rw [foldl_digits_reverse _ _ (natDigitsRev_lt_ten n n)]
    rw [ofDigitsRev_natDigitsRev n n (Nat.le_refl n)]
    simp

/-! ### Splitter lemmas -/

theorem splitSepAux_no_sep {sep : Char} : ∀ (cs acc : List Char), (∀ c ∈ cs, c ≠ sep) →
    splitSepAux sep acc cs = [acc.reverse ++ cs] := by
  intro cs
  induction cs with
  | nil => intro acc _; simp [splitSepAux]
  | cons c cs ih =>
    intro acc hall
    have hc : c ≠ sep := hall c (List.mem_cons_self _ _)
    simp only [splitSepAux, if_neg hc]
    rw [ih (c :: acc) (fun x hx => hall x (List.mem_cons_of_mem _ hx))]
    simp

theorem splitSepAux_append_sep {sep : Char} : ∀ (cs acc rest : List Char),
    (∀ c ∈ cs, c ≠ sep) →
    splitSepAux sep acc (cs ++ sep :: rest) = (acc.reverse ++ cs) :: splitSepAux sep [] rest := by
  intro cs
  induction cs with
  | nil => intro acc rest _; simp [splitSepAux]
  | cons c cs ih =>
    intro acc rest hall
    have hc : c ≠ sep := hall c (List.mem_cons_self _ _)
    simp only [List.cons_append, splitSepAux, if_neg hc, List.append_eq]
    rw [ih (c :: acc) rest (fun x hx => hall x (List.mem_cons_of_mem _ hx))]
    simp

theorem padZeros_renderNat_ne_dash (n k : Nat) : ∀ c ∈ padZeros k (renderNat n), c ≠ '-' := by
  intro c hc
  have h := digitVal_isSome_of_padZeros (digitVal_isSome_of_renderNat n) c hc
  intro heq
  subst heq
  simp [digitVal] at h

/-- Parsing a formatted valid date recovers the date. -/
theorem parseDate_formatDate {d : Date} (hv : validDate d) :
    parseDate (formatDate d) = some d := by
  unfold parseDate formatDate
  show (match splitSep '-' (padZeros 4 (renderNat d.year) ++ '-' ::
      (padZeros 2 (renderNat d.month) ++ '-' :: padZeros 2 (renderNat d.day))) with
    | [ys, ms, ds] => _ | _ => none) = some d
  unfold splitSep
  rw [splitSepAux_append_sep _ _ _ (padZeros_renderNat_ne_dash d.year 4)]
  rw [splitSepAux_append_sep _ _ _ (padZeros_renderNat_ne_dash d.month 2)]
  rw [splitSepAux_no_sep _ _ (padZeros_renderNat_ne_dash d.day 2)]
  simp only [List.nil_append, List.reverse_nil]
  rw [parseNat_padZeros_renderNat, parseNat_padZeros_renderNat, parseNat_padZeros_renderNat]
  simp [hv]

theorem parseDate_valid {s : String} {d : Date} (h : parseDate s = some d) :
    validDate d = true := by
  unfold parseDate at h
  split at h
  · split at h
    · simp only [] at h
      split at h
      · next hvd => simp only [Option.some.injEq] at h; subst h; exact hvd
      · exact absurd h (by simp)
    · exact absurd h (by simp)
  · exact absurd h (by simp)

/-! ### Date order helper lemmas -/

theorem dmax_key (a b : Date) : (dmax a b).key = max a.key b.key := by
  unfold dmax; split <;> omega

theorem dmin_key (a b : Date) : (dmin a b).key = min a.key b.key := by
  unfold dmin; split <;> omega

theorem dmax_valid {a b : Date} (ha : validDate a) (hb : validDate b) :
    validDate (dmax a b) = true := by
  unfold dmax; split <;> assumption

theorem dmin_valid {a b : Date} (ha : validDate a) (hb : validDate b) :
    validDate (dmin a b) = true := by
  unfold dmin; split <;> assumption

theorem scenLo_valid (scenario : String) : validDate (scenLo scenario) = true := by
  unfold scenLo; split <;> decide

theorem scenHi_valid (scenario : String) : validDate (scenHi scenario) = true := by
  unfold scenHi; split <;> decide

theorem dmax_eq_left {a b : Date} (h : b.key ≤ a.key) : dmax a b = a := if_pos h

theorem dmin_eq_left {a b : Date} (h : a.key ≤ b.key) : dmin a b = a := if_pos h

/-! ### Claim C1 -/

/-- Claim C1: `convert_units` subtracts 273.15 for the three temperature
bands, multiplies by 86400 for `pr`, and passes every other identifier's
value through unchanged. -/
theorem convert_units_spec (v : ℚ) :
    (∀ b, b ∈ ["tas", "tasmax", "tasmin"] → convert_units b v = v - 273.15) ∧
    convert_units "pr" v = v * 86400 ∧
    (∀ b, b ∉ ["tas", "tasmax", "tasmin", "pr"] → convert_units b v = v) := by
  refine ⟨?_, rfl, ?_⟩
  · intro b hb
    fin_cases hb <;> rfl
  · intro b hb
    simp only [List.mem_cons, List.not_mem_nil, or_false, not_or] at hb
    obtain ⟨h1, h2, h3, h4⟩ := hb
    unfold convert_units
    rw [if_neg (by simp [h1, h2, h3]), if_neg h4]

/-- Witness for C1 at concrete inputs, including an identifier outside the
documented band list. -/
theorem convert_units_spec_witness :
    convert_units "tas" 300 = 300 - 273.15 ∧ convert_units "pr" 2 = 2 * 86400 ∧
      convert_units "XYZ" 55 = 55 :=
  ⟨(convert_units_spec 300).1 "tas" (by decide), (convert_units_spec 2).2.1,
   (convert_units_spec 55).2.2 "XYZ" (by decide)⟩

/-! ### Claim C2 -/

/-- Claim C2: on parseable dates, `clamp_dates_for_scenario` returns the
intersection of the requested window with the scenario's valid window
(historical 1950-2014, otherwise 2015-2100), returning the null pair
exactly when the intersection is empty; including the three concrete
examples from the specification. -/
theorem clamp_dates_spec (s e scenario : String) (sd ed : Date)
    (hs : parseDate s = some sd) (he : parseDate e = some ed) :
    (clamp_dates_for_scenario s e scenario = none ↔
      ¬ ∃ d : Date, sd.key ≤ d.key ∧ d.key ≤ ed.key ∧
        (scenLo scenario).key ≤ d.key ∧ d.key ≤ (scenHi scenario).key) ∧
    (∀ s' e', clamp_dates_for_scenario s e scenario = some (s', e') →
      ∃ sd' ed', parseDate s' = some sd' ∧ parseDate e' = some ed' ∧
        ∀ d : Date, (sd'.key ≤ d.key ∧ d.key ≤ ed'.key) ↔
          (sd.key ≤ d.key ∧ d.key ≤ ed.key ∧
            (scenLo scenario).key ≤ d.key ∧ d.key ≤ (scenHi scenario).key)) ∧
    (clamp_dates_for_scenario "1900-01-01" "2020-12-31" "historical"
        = some ("1950-01-01", "2014-12-31") ∧
      clamp_dates_for_scenario "2095-01-01" "2099-12-31" "historical" = none ∧
      clamp_dates_for_scenario "2005-01-01" "2009-12-31" "ssp245" = none) := by
  have hparse : clamp_dates_for_scenario s e scenario
      = (clampD sd ed scenario).map (fun p => (formatDate p.1, formatDate p.2)) := by
    unfold clamp_dates_for_scenario
    rw [hs, he]
  refine ⟨?_, ?_, by decide, by decide, by decide⟩
  · rw [hparse]
    unfold clampD
    by_cases hlt : (dmin ed (scenHi scenario)).key < (dmax sd (scenLo scenario)).key
    · rw [if_pos hlt]
      simp only [Option.map_none', true_iff]
      rintro ⟨d, h1, h2, h3, h4⟩
      rw [dmin_key, dmax_key] at hlt
      omega
    · rw [if_neg hlt]
      simp only [Option.map_some']
      constructor
      · intro hcon
        exact absurd hcon (by simp)
      · intro hno
        exfalso
        apply hno
        rw [dmin_key, dmax_key] at hlt
        have hk : (Date.mk 0 0 (max sd.key (scenLo scenario).key)).key
            = max sd.key (scenLo scenario).key := by
          simp [Date.key]
        refine ⟨⟨0, 0, max sd.key (scenLo scenario).key⟩, ?_, ?_, ?_, ?_⟩ <;>
          rw [hk] <;> omega
  · intro s' e' h
    rw [hparse] at h
    unfold clampD at h
    by_cases hlt : (dmin ed (scenHi scenario)).key < (dmax sd (scenLo scenario)).key
    · rw [if_pos hlt] at h
      exact absurd h (by simp)
    · rw [if_neg hlt] at h
      simp only [Option.map_some', Option.some.injEq, Prod.mk.injEq] at h
      obtain ⟨h1, h2⟩ := h
      refine ⟨dmax sd (scenLo scenario), dmin ed (scenHi scenario), ?_, ?_, ?_⟩
      · rw [← h1]
        exact parseDate_formatDate (dmax_valid (parseDate_valid hs) (scenLo_valid scenario))
      · rw [← h2]
        exact parseDate_formatDate (dmin_valid (parseDate_valid he) (scenHi_valid scenario))
      · intro d
        rw [dmax_key, dmin_key]
        omega

/-- Witness for C2: the clamper applied to the specification's first
concrete example. -/
theorem clamp_dates_spec_witness :
    clamp_dates_for_scenario "1900-01-01" "2020-12-31" "historical"
      = some ("1950-01-01", "2014-12-31") :=
  (clamp_dates_spec "1900-01-01" "2020-12-31" "historical" ⟨1900, 1, 1⟩ ⟨2020, 12, 31⟩
    (by decide) (by decide)).2.2.1

/-! ### Claim C10 -/

/-- Claim C10: whenever `clamp_dates_for_scenario` returns a non-null pair,
the returned start is at most the returned end, both lie inside the
scenario's valid window, and the pair is a fixpoint of the clamper. -/
theorem clamp_dates_fixpoint (s e scenario s' e' : String)
    (h : clamp_dates_for_scenario s e scenario = some (s', e')) :
    ∃ sd' ed', parseDate s' = some sd' ∧ parseDate e' = some ed' ∧
      sd'.key ≤ ed'.key ∧
      (scenLo scenario).key ≤ sd'.key ∧ sd'.key ≤ (scenHi scenario).key ∧
      (scenLo scenario).key ≤ ed'.key ∧ ed'.key ≤ (scenHi scenario).key ∧
      clamp_dates_for_scenario s' e' scenario = some (s', e') := by
  unfold clamp_dates_for_scenario at h
  split at h
  case h_2 => exact absurd h (by simp)
  case h_1 sd ed hps hpe =>
    unfold clampD at h
    by_cases hlt : (dmin ed (scenHi scenario)).key < (dmax sd (scenLo scenario)).key
    · rw [if_pos hlt] at h
      exact absurd h (by simp)
    · rw [if_neg hlt] at h
      simp only [Option.map_some', Option.some.injEq, Prod.mk.injEq] at h
      obtain ⟨h1, h2⟩ := h
      set A := dmax sd (scenLo scenario) with hA
      set B := dmin ed (scenHi scenario) with hB
      have hAv : validDate A = true := dmax_valid (parseDate_valid hps) (scenLo_valid scenario)
      have hBv : validDate B = true := dmin_valid (parseDate_valid hpe) (scenHi_valid scenario)
      have hAk : A.key = max sd.key (scenLo scenario).key := by rw [hA]; exact dmax_key _ _
      have hBk : B.key = min ed.key (scenHi scenario).key := by rw [hB]; exact dmin_key _ _
      refine ⟨A, B, ?_, ?_, ?_, ?_, ?_, ?_, ?_, ?_⟩
      · rw [← h1]; exact parseDate_formatDate hAv
      · rw [← h2]; exact parseDate_formatDate hBv
      · omega
      · omega
      · omega
      · omega
      · omega
      · unfold clamp_dates_for_scenario
        rw [← h1, ← h2, parseDate_formatDate hAv, parseDate_formatDate hBv]
        show (clampD A B scenario).map (fun p => (formatDate p.1, formatDate p.2))
          = some (formatDate A, formatDate B)
        unfold clampD
        rw [dmax_eq_left (show (scenLo scenario).key ≤ A.key by omega),
          dmin_eq_left (show B.key ≤ (scenHi scenario).key by omega)]
        rw [if_neg (by omega)]
        simp

/-- Witness for C10 at the specification's first concrete example. -/
theorem clamp_dates_fixpoint_witness :
    ∃ sd' ed', parseDate "1950-01-01" = some sd' ∧ parseDate "2014-12-31" = some ed' ∧
      sd'.key ≤ ed'.key ∧
      (scenLo "historical").key ≤ sd'.key ∧ sd'.key ≤ (scenHi "historical").key ∧
      (scenLo "historical").key ≤ ed'.key ∧ ed'.key ≤ (scenHi "historical").key ∧
      clamp_dates_for_scenario "1950-01-01" "2014-12-31" "historical"
        = some ("1950-01-01", "2014-12-31") :=
  clamp_dates_fixpoint "1900-01-01" "2020-12-31" "historical" "1950-01-01" "2014-12-31"
    (by decide)

/-! ### Claim C8 -/

theorem validateSelection_eq_none {sel_bands sel_models sel_scen : List String}
    {decades : List (String × String)} {incInd incEns : Bool}
    (hnone : validateSelection sel_bands sel_models sel_scen decades incInd incEns = none) :
    sel_bands ≠ [] ∧ sel_models ≠ [] ∧ sel_scen ≠ [] ∧ decades ≠ [] ∧
      (incEns = true → 2 ≤ sel_models.length) := by
  unfold validateSelection at hnone
  split at hnone
  · exact absurd hnone (by simp)
  · split at hnone
    · exact absurd hnone (by simp)
    · split at hnone
      · exact absurd hnone (by simp)
      · split at hnone
        · exact absurd hnone (by simp)
        · split at hnone
          · exact absurd hnone (by simp)
          · split at hnone
            · exact absurd hnone (by simp)
            · next h1 h2 h3 h4 h5 h6 =>
              simp only [List.isEmpty_iff] at h1 h2 h3 h4
              refine ⟨h1, h2, h3, h4, ?_⟩
              intro hE
              subst hE
              simp only [Bool.true_and, decide_eq_true_eq, Nat.not_lt] at h6
              exact h6

/-- Claim C8: an empty variable, model, scenario, or decade selection, or a
requested ensemble mean with fewer than two selected models, aborts the
fetch sweep with a user-facing message before any remote call is recorded. -/
theorem sweep_validation_aborts (sel_bands sel_models sel_scen : List String)
    (decades : List (String × String)) (incInd incEns : Bool)
    (h : sel_bands = [] ∨ sel_models = [] ∨ sel_scen = [] ∨ decades = [] ∨
      (incEns = true ∧ sel_models.length < 2)) :
    ∃ msg, runSweep sel_bands sel_models sel_scen decades incInd incEns = .error msg := by
  have hne : validateSelection sel_bands sel_models sel_scen decades incInd incEns ≠ none := by
    intro hnone
    obtain ⟨hb, hm, hsc, hd, he2⟩ := validateSelection_eq_none hnone
    rcases h with h | h | h | h | ⟨h1, h2⟩
    · exact hb h
    · exact hm h
    · exact hsc h
    · exact hd h
    · have := he2 h1
      omega
  obtain ⟨m, hm⟩ := Option.ne_none_iff_exists'.mp hne
  refine ⟨m, ?_⟩
  unfold runSweep
  rw [hm]

/-- Witness for C8: empty variable selection aborts the sweep. -/
theorem sweep_validation_aborts_witness :
    ∃ msg, runSweep [] ["ACCESS-ESM1-5"] ["historical"]
      [("2000-01-01", "2009-12-31")] true true = .error msg :=
  sweep_validation_aborts [] ["ACCESS-ESM1-5"] ["historical"]
    [("2000-01-01", "2009-12-31")] true true (Or.inl rfl)

/-! ### Claim C9 -/

theorem recLe_total (a b : Rec) : recLe a b || recLe b a := by
  simp only [recLe, Bool.or_eq_true, Bool.and_eq_true, decide_eq_true_eq, beq_iff_eq]
  rcases lt_trichotomy a.band b.band with h | h | h
  · exact Or.inl (Or.inl h)
  · rcases lt_trichotomy a.model b.model with h2 | h2 | h2
    · exact Or.inl (Or.inr ⟨h, Or.inl h2⟩)
    · rcases lt_trichotomy a.scenario b.scenario with h3 | h3 | h3
      · exact Or.inl (Or.inr ⟨h, Or.inr ⟨h2, Or.inl h3⟩⟩)
      · rcases le_total a.date b.date with h4 | h4
        · exact Or.inl (Or.inr ⟨h, Or.inr ⟨h2, Or.inr ⟨h3, h4⟩⟩⟩)
        · exact Or.inr (Or.inr ⟨h.symm, Or.inr ⟨h2.symm, Or.inr ⟨h3.symm, h4⟩⟩⟩)
      · exact Or.inr (Or.inr ⟨h.symm, Or.inr ⟨h2.symm, Or.inl h3⟩⟩)
    · exact Or.inr (Or.inr ⟨h.symm, Or.inl h2⟩)
  · exact Or.inr (Or.inl h)

theorem recLe_trans (a b c : Rec) : recLe a b → recLe b c → recLe a c := by
  simp only [recLe, Bool.or_eq_true, Bool.and_eq_true, decide_eq_true_eq, beq_iff_eq]
  intro hab hbc
  rcases hab with h | ⟨e1, hab⟩
  · rcases hbc with h' | ⟨e1', _⟩
    · exact Or.inl (h.trans h')
    · exact Or.inl (lt_of_lt_of_eq h e1')
  · rcases hbc with h' | ⟨e1', hbc⟩
    · exact Or.inl (lt_of_eq_of_lt e1 h')
    · refine Or.inr ⟨e1.trans e1', ?_⟩
      rcases hab with h | ⟨e2, hab⟩
      · rcases hbc with h' | ⟨e2', _⟩
        · exact Or.inl (h.trans h')
        · exact Or.inl (lt_of_lt_of_eq h e2')
      · rcases hbc with h' | ⟨e2', hbc⟩
        · exact Or.inl (lt_of_eq_of_lt e2 h')
        · refine Or.inr ⟨e2.trans e2', ?_⟩
          rcases hab with h | ⟨e3, hab⟩
          · rcases hbc with h' | ⟨e3', _⟩
            · exact Or.inl (h.trans h')
            · exact Or.inl (lt_of_lt_of_eq h e3')
          · rcases hbc with h' | ⟨e3', hbc⟩
            · exact Or.inl (lt_of_eq_of_lt e3 h')
            · exact Or.inr ⟨e3.trans e3', hab.trans hbc⟩

/-- Claim C9: the combined all-models table and the final output table
(individual models plus any ENSEMBLE-MEAN records) are both sorted by
`(band, model, scenario, date)` before being handed to the packager. -/
theorem output_tables_sorted (frames : List (List Rec))
    (sel_scen sel_bands sel_models : List String) (incInd incEns : Bool)
    (hne : frames.flatten ≠ []) :
    (allDataFrame frames).recs.Pairwise (fun a b : Rec => recLe a b = true) ∧
    (outFrame frames sel_scen sel_bands sel_models incInd incEns).recs.Pairwise
      (fun a b : Rec => recLe a b = true) := by
  constructor
  · exact List.sorted_mergeSort recLe_trans recLe_total frames.flatten
  · exact List.sorted_mergeSort recLe_trans recLe_total _

/-- Witness for C9 on a concrete two-model fetch result. -/
theorem output_tables_sorted_witness :
    ([exTable].flatten ≠ []) ∧
    (allDataFrame [exTable]).recs.Pairwise (fun a b : Rec => recLe a b = true) ∧
    (outFrame [exTable] ["ssp245"] ["tas"] ["ACCESS-ESM1-5", "CanESM5"] true true).recs.Pairwise
      (fun a b : Rec => recLe a b = true) :=
  ⟨by simp [exTable],
   (output_tables_sorted [exTable] ["ssp245"] ["tas"] ["ACCESS-ESM1-5", "CanESM5"] true true
      (by simp [exTable])).1,
   (output_tables_sorted [exTable] ["ssp245"] ["tas"] ["ACCESS-ESM1-5", "CanESM5"] true true
      (by simp [exTable])).2⟩

/-! ### Claim C3 -/

/-- Claim C3: on a table with at most one record per
`(date, band, model, scenario)` tuple, the ensemble aggregator emits, for a
scenario and band, exactly one record per date occurring in that slice,
with model `ENSEMBLE-MEAN`, that scenario and band, and value the
arithmetic mean across exactly the models having a record for that date
(missing models excluded); two models with values 10 and 20 yield 15. -/
theorem ensemble_spec (table : List Rec) (s b : String)
    (huniq : (table.map (fun r => (r.date, r.band, r.model, r.scenario))).Nodup) :
    ((ensembleFor table s b).map Rec.date).Nodup ∧
    (∀ d, d ∈ (ensembleFor table s b).map Rec.date ↔ d ∈ (subsetFor table s b).map Rec.date) ∧
    (∀ r ∈ ensembleFor table s b, r.model = "ENSEMBLE-MEAN" ∧ r.scenario = s ∧ r.band = b) ∧
    (∀ r ∈ ensembleFor table s b,
      grpFor (subsetFor table s b) r.date ≠ [] ∧
      ((grpFor (subsetFor table s b) r.date).map Rec.model).Nodup ∧
      (∀ m, m ∈ (grpFor (subsetFor table s b) r.date).map Rec.model ↔
        ∃ x ∈ table, x.scenario = s ∧ x.band = b ∧ x.date = r.date ∧ x.model = m) ∧
      r.value = sumValues (grpFor (subsetFor table s b) r.date)
        / ((grpFor (subsetFor table s b) r.date).length : ℚ)) ∧
    ensembleFor exTable "ssp245" "tas"
      = [⟨"2000-01-01", "tas", 15, "ENSEMBLE-MEAN", "ssp245"⟩] := by
  have hmem_subset : ∀ x : Rec, x ∈ subsetFor table s b ↔
      x ∈ table ∧ x.scenario = s ∧ x.band = b := by
    intro x
    simp [subsetFor, List.mem_filter, and_assoc]
  have hgrp_mem : ∀ d (x : Rec), x ∈ grpFor (subsetFor table s b) d ↔
      x ∈ table ∧ x.scenario = s ∧ x.band = b ∧ x.date = d := by
    intro d x
    simp only [grpFor, List.mem_filter, beq_iff_eq, hmem_subset, and_assoc]
  by_cases hempty : (subsetFor table s b).isEmpty
  · have hout : ensembleFor table s b = [] := by
      unfold ensembleFor
      rw [if_pos hempty]
    have hsub_nil : subsetFor table s b = [] := List.isEmpty_iff.mp hempty
    refine ⟨by simp [hout], by simp [hout, hsub_nil], by simp [hout], by simp [hout], ?_⟩
    with_unfolding_all rfl
  · have hout : ensembleFor table s b
        = (datesSorted (subsetFor table s b)).map (ensembleRec (subsetFor table s b) s b) := by
      unfold ensembleFor
      rw [if_neg hempty]
    have hmap_date : (ensembleFor table s b).map Rec.date
        = datesSorted (subsetFor table s b) := by
      rw [hout, List.map_map]
      show List.map (fun d => d) (datesSorted (subsetFor table s b)) = _
      simp
    have hdates_nodup : (datesSorted (subsetFor table s b)).Nodup := by
      unfold datesSorted
      exact ((List.mergeSort_perm _ _).nodup_iff).mpr (List.nodup_dedup _)
    have hmem_dates : ∀ d, d ∈ datesSorted (subsetFor table s b) ↔
        d ∈ (subsetFor table s b).map Rec.date := by
      intro d
      unfold datesSorted
      rw [List.mem_mergeSort, List.mem_dedup]
    have hgrp_sub : ∀ d, (grpFor (subsetFor table s b) d).Sublist table :=
      fun d => (List.filter_sublist _).trans (List.filter_sublist _)
    have htup : ∀ d, ((grpFor (subsetFor table s b) d).map
        (fun r => (r.date, r.band, r.model, r.scenario))).Nodup :=
      fun d => List.Nodup.sublist
        ((hgrp_sub d).map (fun r => (r.date, r.band, r.model, r.scenario))) huniq
    refine ⟨hmap_date ▸ hdates_nodup, fun d => hmap_date ▸ hmem_dates d, ?_, ?_, ?_⟩
    · intro r hr
      rw [hout] at hr
      obtain ⟨d, _, rfl⟩ := List.mem_map.mp hr
      exact ⟨rfl, rfl, rfl⟩
    · intro r hr
      rw [hout] at hr
      obtain ⟨d, hd, rfl⟩ := List.mem_map.mp hr
      have hrdate : (ensembleRec (subsetFor table s b) s b d).date = d := rfl
      rw [hrdate]
      refine ⟨?_, ?_, ?_, rfl⟩
      · have hdmem : d ∈ (subsetFor table s b).map Rec.date := (hmem_dates d).mp hd
        obtain ⟨x, hx, hxd⟩ := List.mem_map.mp hdmem
        have : x ∈ grpFor (subsetFor table s b) d := by
          rw [hgrp_mem]
          have := (hmem_subset x).mp hx
          exact ⟨this.1, this.2.1, this.2.2, hxd⟩
        exact List.ne_nil_of_mem this
      · have hg := htup d
        have hgrp_nodup : (grpFor (subsetFor table s b) d).Nodup :=
          List.Nodup.of_map _ hg
        refine hgrp_nodup.map_on ?_
        intro x hx y hy hxy
        have hx2 := (hgrp_mem d x).mp hx
        have hy2 := (hgrp_mem d y).mp hy
        exact List.inj_on_of_nodup_map hg hx hy
          (by simp [hx2.2.1, hx2.2.2.1, hx2.2.2.2, hy2.2.1, hy2.2.2.1, hy2.2.2.2, hxy])
      · intro m
        simp only [List.mem_map]
        constructor
        · rintro ⟨x, hx, rfl⟩
          have := (hgrp_mem d x).mp hx
          exact ⟨x, this.1, this.2.1, this.2.2.1, this.2.2.2, rfl⟩
        · rintro ⟨x, hxt, hxs, hxb, hxd, rfl⟩
          exact ⟨x, (hgrp_mem d x).mpr ⟨hxt, hxs, hxb, hxd⟩, rfl⟩
    · with_unfolding_all rfl

/-- Witness for C3: the specification's two-model aggregation example. -/
theorem ensemble_spec_witness :
    (exTable.map (fun r => (r.date, r.band, r.model, r.scenario))).Nodup ∧
    ensembleFor exTable "ssp245" "tas"
      = [⟨"2000-01-01", "tas", 15, "ENSEMBLE-MEAN", "ssp245"⟩] :=
  ⟨by decide, (ensemble_spec exTable "ssp245" "tas" (by decide)).2.2.2.2⟩

/-! ### Serialization lemmas -/

theorem splitSep_no_sep {sep : Char} {cs : List Char} (h : ∀ c ∈ cs, c ≠ sep) :
    splitSep sep cs = [cs] := by
  unfold splitSep
  rw [splitSepAux_no_sep cs [] h]
  simp

theorem splitSep_append_sep {sep : Char} {cs rest : List Char} (h : ∀ c ∈ cs, c ≠ sep) :
    splitSep sep (cs ++ sep :: rest) = cs :: splitSep sep rest := by
  unfold splitSep
  rw [splitSepAux_append_sep cs [] rest h]
  simp [splitSep]

theorem splitSep_sepJoin {sep : Char} : ∀ ls : List (List Char), ls ≠ [] →
    (∀ l ∈ ls, ∀ c ∈ l, c ≠ sep) → splitSep sep (sepJoin sep ls) = ls
  | [], h, _ => absurd rfl h
  | [x], _, hall => by
    show splitSep sep x = [x]
    exact splitSep_no_sep (hall x (by simp))
  | x :: y :: r, _, hall => by
    show splitSep sep (x ++ sep :: sepJoin sep (y :: r)) = x :: y :: r
    rw [splitSep_append_sep (hall x (by simp))]
    rw [splitSep_sepJoin (y :: r) (by simp) (fun l hl => hall l (List.mem_cons_of_mem _ hl))]

theorem splitSep_sepJoin_append {sep : Char} : ∀ (ls : List (List Char)) (rest : List Char),
    ls ≠ [] → (∀ l ∈ ls, ∀ c ∈ l, c ≠ sep) →
    splitSep sep (sepJoin sep ls ++ sep :: rest) = ls ++ splitSep sep rest
  | [], _, h, _ => absurd rfl h
  | [x], rest, _, hall => by
    show splitSep sep (x ++ sep :: rest) = x :: splitSep sep rest
    exact splitSep_append_sep (hall x (by simp))
  | x :: y :: r, rest, _, hall => by
    show splitSep sep ((x ++ sep :: sepJoin sep (y :: r)) ++ sep :: rest) = _
    have hassoc : (x ++ sep :: sepJoin sep (y :: r)) ++ sep :: rest
        = x ++ sep :: (sepJoin sep (y :: r) ++ sep :: rest) := by simp
    rw [hassoc, splitSep_append_sep (hall x (by simp))]
    rw [splitSep_sepJoin_append (y :: r) rest (by simp)
      (fun l hl => hall l (List.mem_cons_of_mem _ hl))]
    rfl

theorem splitSep_flatten_terminated {sep : Char} : ∀ ls : List (List Char),
    (∀ l ∈ ls, ∀ c ∈ l, c ≠ sep) →
    splitSep sep ((ls.map (fun l => l ++ [sep])).flatten) = ls ++ [[]]
  | [], _ => rfl
  | x :: r, hall => by
    show splitSep sep ((x ++ [sep]) ++ (r.map (fun l => l ++ [sep])).flatten) = (x :: r) ++ [[]]
    have hshape : (x ++ [sep]) ++ (r.map (fun l => l ++ [sep])).flatten
        = x ++ sep :: (r.map (fun l => l ++ [sep])).flatten := by simp
    rw [hshape, splitSep_append_sep (hall x (by simp))]
    rw [splitSep_flatten_terminated r (fun l hl => hall l (List.mem_cons_of_mem _ hl))]
    rfl

theorem mem_sepJoin {sep : Char} : ∀ (ls : List (List Char)) (c : Char),
    c ∈ sepJoin sep ls → c = sep ∨ ∃ l ∈ ls, c ∈ l
  | [], c, h => absurd h (by simp [sepJoin])
  | [x], c, h => Or.inr ⟨x, by simp, h⟩
  | x :: y :: r, c, h => by
    rcases List.mem_append.mp h with h | h
    · exact Or.inr ⟨x, by simp, h⟩
    · rcases List.mem_cons.mp h with h | h
      · exact Or.inl h
      · rcases mem_sepJoin (y :: r) c h with h | ⟨l, hl, hc⟩
        · exact Or.inl h
        · exact Or.inr ⟨l, List.mem_cons_of_mem _ hl, hc⟩

/-- Line structure of an artifact body: the metadata lines, the CSV header
row, one line per record, and the empty chunk after the final newline. -/
theorem artifact_lines (metaLines : List String) (f : Frame)
    (hmeta_ne : metaLines ≠ [])
    (hmeta_nl : ∀ l ∈ metaLines, ∀ ch ∈ l.data, ch ≠ '\n')
    (hhdr_nl : ∀ ch ∈ sepJoin ',' (f.cols.map String.data), ch ≠ '\n')
    (hrows_nl : ∀ r ∈ f.recs, ∀ ch ∈ rowChars f.cols r, ch ≠ '\n') :
    splitSep '\n' (artifactChars metaLines f)
      = metaLines.map String.data
          ++ sepJoin ',' (f.cols.map String.data) :: f.recs.map (rowChars f.cols) ++ [[]] := by
  unfold artifactChars metadataChars csvChars
  have hshape : sepJoin '\n' (metaLines.map String.data) ++ ['\n']
      ++ (sepJoin ',' (f.cols.map String.data) ++ '\n' ::
        (f.recs.map (fun r => rowChars f.cols r ++ ['\n'])).flatten)
      = sepJoin '\n' (metaLines.map String.data)
        ++ '\n' :: (sepJoin ',' (f.cols.map String.data) ++ '\n' ::
          (f.recs.map (fun r => rowChars f.cols r ++ ['\n'])).flatten) := by
    simp
  rw [hshape]
  rw [splitSep_sepJoin_append (metaLines.map String.data) _ (by simpa using hmeta_ne)
    (by
      intro l hl c hc
      obtain ⟨m, hm, rfl⟩ := List.mem_map.mp hl
      exact hmeta_nl m hm c hc)]
  rw [splitSep_append_sep hhdr_nl]
  have hmapmap : f.recs.map (fun r => rowChars f.cols r ++ ['\n'])
      = (f.recs.map (rowChars f.cols)).map (fun l => l ++ ['\n']) := by
    rw [List.map_map]
    rfl
  rw [hmapmap]
  rw [splitSep_flatten_terminated (f.recs.map (rowChars f.cols))
    (by
      intro l hl c hc
      obtain ⟨r, hr, rfl⟩ := List.mem_map.mp hl
      exact hrows_nl r hr c hc)]
  simp

theorem metaBaseLines_head (latS lonS locName genTime : String) :
    ∀ l ∈ metaBaseLines latS lonS locName genTime, l.data.head? = some '#' := by
  intro l hl
  unfold metaBaseLines at hl
  fin_cases hl <;> rfl

theorem metaClosingLines_head : ∀ l ∈ metaClosingLines, l.data.head? = some '#' := by
  intro l hl
  unfold metaClosingLines at hl
  fin_cases hl <;> rfl

theorem metaModelLines_head (mi : List String) :
    ∀ l ∈ metaModelLines mi, l.data.head? = some '#' := by
  intro l hl
  unfold metaModelLines at hl
  split at hl
  · simp at hl
  · split at hl
    · rcases List.mem_append.mp hl with hl2 | hl2
      · rcases List.mem_append.mp hl2 with hl3 | hl3
        · fin_cases hl3 <;> rfl
        · obtain ⟨m, _, rfl⟩ := List.mem_map.mp hl3
          rfl
      · fin_cases hl2 <;> rfl
    · split at hl
      · simp only [List.mem_cons, List.not_mem_nil, or_false] at hl
        rcases hl with rfl | rfl | rfl <;> rfl
      · split at hl
        · simp only [List.mem_cons, List.not_mem_nil, or_false] at hl
          rcases hl with rfl | rfl | rfl <;> rfl
        · simp at hl

theorem create_metadata_lines_head (latS lonS locName genTime : String) (mi : List String) :
    ∀ l ∈ create_metadata_lines latS lonS locName genTime mi, l.data.head? = some '#' := by
  intro l hl
  unfold create_metadata_lines at hl
  rcases List.mem_append.mp hl with hl | hl
  · rcases List.mem_append.mp hl with hl | hl
    · exact metaBaseLines_head latS lonS locName genTime l hl
    · exact metaModelLines_head mi l hl
  · exact metaClosingLines_head l hl

/-! ### Claim C6 -/

/-- Claim C6 (amended): every artifact body is the '#'-prefixed metadata
lines, then exactly one header row in the frame's column order, then one
data row per record (and the empty chunk of the final newline); the header
row is `date,band,value,model,scenario` exactly when the frame has the
canonical column order, which holds whenever individual models are
included in the output — but not in the ensemble-only case. -/
theorem artifact_format_spec (latS lonS locName genTime : String) (mi : List String) (f : Frame)
    (hmeta_nl : ∀ l ∈ create_metadata_lines latS lonS locName genTime mi, ∀ ch ∈ l.data, ch ≠ '\n')
    (hhdr_nl : ∀ ch ∈ sepJoin ',' (f.cols.map String.data), ch ≠ '\n')
    (hrows_nl : ∀ r ∈ f.recs, ∀ ch ∈ rowChars f.cols r, ch ≠ '\n') :
    splitSep '\n' (artifactChars (create_metadata_lines latS lonS locName genTime mi) f)
      = (create_metadata_lines latS lonS locName genTime mi).map String.data
          ++ sepJoin ',' (f.cols.map String.data) :: f.recs.map (rowChars f.cols) ++ [[]] ∧
    (∀ l ∈ create_metadata_lines latS lonS locName genTime mi, l.data.head? = some '#') ∧
    (f.cols = canonicalCols →
      sepJoin ',' (f.cols.map String.data) = "date,band,value,model,scenario".data) ∧
    (∀ (frames : List (List Rec)) (sel_scen sel_bands sel_models : List String) (incEns : Bool),
      (outFrame frames sel_scen sel_bands sel_models true incEns).cols = canonicalCols) := by
  refine ⟨?_, create_metadata_lines_head latS lonS locName genTime mi, ?_, ?_⟩
  · exact artifact_lines _ f (by simp [create_metadata_lines, metaBaseLines]) hmeta_nl hhdr_nl
      hrows_nl
  · intro h
    rw [h]
    rfl
  · intro frames sel_scen sel_bands sel_models incEns
    have hred : outFrame frames sel_scen sel_bands sel_models true incEns
        = sortFrame (concatFrames ([allDataFrame frames]
            ++ (if incEns && decide (1 < sel_models.length)
                  && !(ensembleAll (allDataFrame frames).recs sel_scen sel_bands).isEmpty
                then [⟨ensembleCols, ensembleAll (allDataFrame frames).recs sel_scen sel_bands⟩]
                else []))) := rfl
    rw [hred]
    by_cases hC : (incEns && decide (1 < sel_models.length)
        && !(ensembleAll (allDataFrame frames).recs sel_scen sel_bands).isEmpty) = true
    · rw [if_pos hC]
      show colsUnion [canonicalCols, ensembleCols] = canonicalCols
      decide
    · rw [if_neg hC]
      show colsUnion [canonicalCols] = canonicalCols
      decide

set_option maxRecDepth 40000 in
/-- Witness for C6: with individual models included, the concrete pipeline
frame keeps the canonical column order (established through the theorem,
whose other conjuncts fix the artifact's line structure). -/
theorem artifact_format_spec_witness :
    (outFrame [exTable] ["ssp245"] ["tas"] ["ACCESS-ESM1-5", "CanESM5"] true true).cols
      = canonicalCols :=
  (artifact_format_spec "51.5074" "-0.1278" "London, UK" "2026-01-01 00:00:00"
    ["ACCESS-ESM1-5", "CanESM5", "ENSEMBLE-MEAN"] ⟨canonicalCols, exTable⟩
    (by decide) (by decide) (by with_unfolding_all decide)).2.2.2
    [exTable] ["ssp245"] ["tas"] ["ACCESS-ESM1-5", "CanESM5"] true

/-- Counterexample for C6 as stated: in the ensemble-only run the produced
frame does not have the canonical column order, and its CSV text carries
the header row `date,value,band,model,scenario` instead of
`date,band,value,model,scenario`. -/
theorem artifact_header_ensemble_only :
    ensOnlyFrame.cols ≠ canonicalCols ∧
    String.mk (csvChars ensOnlyFrame)
      = "date,value,band,model,scenario\n2000-01-01,15.0,tas,ENSEMBLE-MEAN,ssp245\n" := by
  constructor
  · with_unfolding_all decide
  · with_unfolding_all rfl

/-! ### Claim C7 -/

theorem parseRowChars_rowChars (r : Rec)
    (hdate : ∀ ch ∈ r.date.data, ch ≠ ',') (hband : ∀ ch ∈ r.band.data, ch ≠ ',')
    (hval : ∀ ch ∈ fmtRat r.value, ch ≠ ',') (hmodel : ∀ ch ∈ r.model.data, ch ≠ ',')
    (hscen : ∀ ch ∈ r.scenario.data, ch ≠ ',')
    (hparse : parseDec (fmtRat r.value) = some r.value) :
    parseRowChars (rowChars canonicalCols r) = some r := by
  have hrow : rowChars canonicalCols r
      = sepJoin ',' [r.date.data, r.band.data, fmtRat r.value, r.model.data,
          r.scenario.data] := rfl
  have hsplit : splitSep ',' (rowChars canonicalCols r)
      = [r.date.data, r.band.data, fmtRat r.value, r.model.data, r.scenario.data] := by
    rw [hrow]
    refine splitSep_sepJoin _ (by simp) ?_
    intro l hl c hc
    simp only [List.mem_cons, List.not_mem_nil, or_false] at hl
    rcases hl with rfl | rfl | rfl | rfl | rfl
    exacts [hdate c hc, hband c hc, hval c hc, hmodel c hc, hscen c hc]
  unfold parseRowChars
  rw [hsplit]
  show (match parseDec (fmtRat r.value) with
    | some q => some (⟨⟨r.date.data⟩, ⟨r.band.data⟩, q, ⟨r.model.data⟩, ⟨r.scenario.data⟩⟩ : Rec)
    | none => none) = some r
  rw [hparse]

theorem parseRows_map (recs : List Rec)
    (h : ∀ r ∈ recs, parseRowChars (rowChars canonicalCols r) = some r) :
    parseRows (recs.map (rowChars canonicalCols)) = some recs := by
  induction recs with
  | nil => rfl
  | cons r rs ih =>
    show parseRows (rowChars canonicalCols r :: rs.map (rowChars canonicalCols)) = some (r :: rs)
    unfold parseRows
    rw [h r (List.mem_cons_self _ _), ih (fun x hx => h x (List.mem_cons_of_mem _ hx))]

/-- Claim C7 (amended): serializing a tidy table with the canonical column
order (as whenever individual models are included) and parsing the data-row
section back — dropping the '#'-prefixed metadata block and the header
row — recovers exactly the original records, provided the textual fields
are comma- and newline-free and each value survives the decimal formatting
(the claim's \"modulo precision\" proviso); the ensemble-only column order
breaks this round trip. -/
theorem artifact_roundtrip (metaLines : List String) (f : Frame)
    (hcols : f.cols = canonicalCols)
    (hmeta_ne : metaLines ≠ [])
    (hmeta_nl : ∀ l ∈ metaLines, ∀ ch ∈ l.data, ch ≠ '\n')
    (hmeta_hash : ∀ l ∈ metaLines, l.data.head? = some '#')
    (hfields : ∀ r ∈ f.recs,
      (∀ ch ∈ r.date.data, ch ≠ '\n' ∧ ch ≠ ',') ∧
      (∀ ch ∈ r.band.data, ch ≠ '\n' ∧ ch ≠ ',') ∧
      (∀ ch ∈ fmtRat r.value, ch ≠ '\n' ∧ ch ≠ ',') ∧
      (∀ ch ∈ r.model.data, ch ≠ '\n' ∧ ch ≠ ',') ∧
      (∀ ch ∈ r.scenario.data, ch ≠ '\n' ∧ ch ≠ ',') ∧
      r.date.data.head? ≠ some '#' ∧
      parseDec (fmtRat r.value) = some r.value) :
    parseArtifact (artifactChars metaLines f) = some f.recs := by
  obtain ⟨cols, recs⟩ := f
  simp only [Frame.cols] at hcols
  subst hcols
  simp only [Frame.recs] at hfields ⊢
  have hrow_eq : ∀ r : Rec, rowChars canonicalCols r
      = sepJoin ',' [r.date.data, r.band.data, fmtRat r.value, r.model.data,
          r.scenario.data] := fun r => rfl
  have hrows_nl : ∀ r ∈ recs, ∀ ch ∈ rowChars canonicalCols r, ch ≠ '\n' := by
    intro r hr ch hch
    rw [hrow_eq] at hch
    rcases mem_sepJoin _ ch hch with rfl | ⟨l, hl, hc⟩
    · decide
    · obtain ⟨h1, h2, h3, h4, h5, _, _⟩ := hfields r hr
      simp only [List.mem_cons, List.not_mem_nil, or_false] at hl
      rcases hl with rfl | rfl | rfl | rfl | rfl
      exacts [(h1 ch hc).1, (h2 ch hc).1, (h3 ch hc).1, (h4 ch hc).1, (h5 ch hc).1]
  have hlines := artifact_lines metaLines ⟨canonicalCols, recs⟩ hmeta_ne hmeta_nl
    (by
      show ∀ ch ∈ sepJoin ',' (canonicalCols.map String.data), ch ≠ '\n'
      decide)
    hrows_nl
  simp only [Frame.cols, Frame.recs] at hlines
  unfold parseArtifact
  rw [hlines]
  have hassoc : metaLines.map String.data
      ++ sepJoin ',' (canonicalCols.map String.data) :: recs.map (rowChars canonicalCols) ++ [[]]
      = (metaLines.map String.data
          ++ sepJoin ',' (canonicalCols.map String.data) :: recs.map (rowChars canonicalCols))
        ++ [[]] := by
    simp
  rw [hassoc]
  have hdrop : dropTrailingBlank ((metaLines.map String.data
      ++ sepJoin ',' (canonicalCols.map String.data) :: recs.map (rowChars canonicalCols))
        ++ [[]])
      = metaLines.map String.data
          ++ sepJoin ',' (canonicalCols.map String.data) :: recs.map (rowChars canonicalCols) := by
    unfold dropTrailingBlank
    rw [List.getLast?_concat, List.dropLast_concat]
    simp
  rw [hdrop]
  have hfilter_meta : (metaLines.map String.data).filter
      (fun l => !(l.head? == some '#')) = [] := by
    rw [List.filter_eq_nil_iff]
    intro l hl
    obtain ⟨m, hm, rfl⟩ := List.mem_map.mp hl
    rw [hmeta_hash m hm]
    decide
  have hfilter_rows : (recs.map (rowChars canonicalCols)).filter
      (fun l => !(l.head? == some '#')) = recs.map (rowChars canonicalCols) := by
    rw [List.filter_eq_self]
    intro l hl
    obtain ⟨r, hr, rfl⟩ := List.mem_map.mp hl
    obtain ⟨_, _, _, _, _, hhash, _⟩ := hfields r hr
    rw [hrow_eq]
    show (!((r.date.data ++ ',' :: sepJoin ',' [r.band.data, fmtRat r.value, r.model.data,
      r.scenario.data]).head? == some '#')) = true
    cases hd : r.date.data with
    | nil => rfl
    | cons c cs =>
      rw [hd] at hhash
      have hc : c ≠ '#' := fun h => hhash (by rw [h]; rfl)
      show (!((c :: (cs ++ ',' :: sepJoin ',' [r.band.data, fmtRat r.value, r.model.data,
        r.scenario.data])).head? == some '#')) = true
      simp [hc]
  have hbody : (metaLines.map String.data ++ sepJoin ',' (canonicalCols.map String.data)
        :: recs.map (rowChars canonicalCols)).filter (fun l => !(l.head? == some '#'))
      = sepJoin ',' (canonicalCols.map String.data) :: recs.map (rowChars canonicalCols) := by
    rw [List.filter_append, hfilter_meta, List.nil_append, List.filter_cons]
    split
    · rw [hfilter_rows]
    · next hcond => exact absurd (by decide) hcond
  show (match (metaLines.map String.data ++ sepJoin ',' (canonicalCols.map String.data)
      :: recs.map (rowChars canonicalCols)).filter (fun l => !(l.head? == some '#')) with
    | [] => none
    | _hdr :: rows => parseRows rows) = some recs
  rw [hbody]
  show parseRows (recs.map (rowChars canonicalCols)) = some recs
  refine parseRows_map recs ?_
  intro r hr
  obtain ⟨h1, h2, h3, h4, h5, _, hp⟩ := hfields r hr
  exact parseRowChars_rowChars r (fun ch hc => (h1 ch hc).2) (fun ch hc => (h2 ch hc).2)
    (fun ch hc => (h3 ch hc).2) (fun ch hc => (h4 ch hc).2) (fun ch hc => (h5 ch hc).2) hp

set_option maxRecDepth 40000 in
/-- Witness for C7: a concrete two-record canonical-order artifact parses
back to its records. -/
theorem artifact_roundtrip_witness :
    parseArtifact (artifactChars (create_metadata_lines "51.5074" "-0.1278" "London, UK"
      "2026-01-01 00:00:00" ["ACCESS-ESM1-5", "CanESM5"]) ⟨canonicalCols, exTable⟩)
      = some exTable :=
  artifact_roundtrip _ ⟨canonicalCols, exTable⟩ rfl (by decide) (by decide) (by decide)
    (by with_unfolding_all decide)

set_option maxRecDepth 40000 in
/-- Counterexample for C7 as stated: the ensemble-only artifact does not
parse back to its (nonempty) records — the permuted column order makes the
value field unparsable, so the parse fails entirely. -/
theorem artifact_roundtrip_ensemble_only_fails :
    parseArtifact (artifactChars
      (create_metadata_lines "51.5074" "-0.1278" "London, UK" "2026-01-01 00:00:00"
        ["ENSEMBLE-MEAN"]) ensOnlyFrame) = none ∧
    ensOnlyFrame.recs ≠ [] := by
  constructor
  · with_unfolding_all rfl
  · with_unfolding_all decide

/-! ### Claim C4 -/

theorem fetch_unfold_ok_okbn (bands : List String) (model scenario : String) (n : Nat)
    (avail : List String) (rg : Except Unit (List (List Cell))) :
    fetch_point_timeseries bands model scenario ⟨.ok n, .ok avail, rg⟩
      = if n = 0 then .ok []
        else if (bands.filter (fun b => decide (b ∈ avail))).isEmpty then .ok []
        else fetchRegion (bands.filter (fun b => decide (b ∈ avail))) model scenario rg := by
  by_cases hn : n = 0
  · subst hn
    rfl
  · show (if n = 0 then Except.ok [] else _) = _
    rw [if_neg hn]

theorem fetch_unfold_ok_errbn (bands : List String) (model scenario : String) (n : Nat)
    (e : Unit) (rg : Except Unit (List (List Cell))) :
    fetch_point_timeseries bands model scenario ⟨.ok n, .error e, rg⟩
      = if n = 0 then .ok [] else fetchRegion bands model scenario rg := by
  by_cases hn : n = 0
  · subst hn
    rfl
  · show (if n = 0 then Except.ok [] else _) = _
    rw [if_neg hn]

theorem fetchRegion_unfold (btf : List String) (model scenario : String)
    (arr : List (List Cell)) :
    fetchRegion btf model scenario (.ok arr)
      = if arr.length < 2 then .ok []
        else match (arr.headD []).findIdx? (fun c => c == Cell.str "time") with
          | none => .ok []
          | some time_idx => allRowRecs (arr.headD []) time_idx btf model scenario arr.tail := rfl

theorem rowBandRecs_ok (header row : List Cell) (m sc d : String) :
    ∀ bs : List String, rowCellsOk header bs row = true →
      ∃ l, rowBandRecs header row m sc d bs = .ok l := by
  intro bs
  induction bs with
  | nil => intro _; exact ⟨[], rfl⟩
  | cons b bs ih =>
    intro h
    unfold rowCellsOk at h
    rw [List.all_cons] at h
    obtain ⟨hb, hbs⟩ := Bool.and_eq_true_iff.mp h
    obtain ⟨l, hl⟩ := ih hbs
    cases hidx : header.findIdx? (fun c => c == Cell.str b) with
    | none =>
      refine ⟨l, ?_⟩
      simp only [rowBandRecs, hidx]
      exact hl
    | some idx =>
      rw [hidx] at hb
      have hb2 : cellNumOrNull (row[idx]?) = true := hb
      cases hcell : row[idx]? with
      | none => rw [hcell] at hb2; exact absurd hb2 (by decide)
      | some cl =>
        cases cl with
        | null =>
          refine ⟨l, ?_⟩
          simp only [rowBandRecs, hidx, hcell]
          exact hl
        | num q =>
          refine ⟨⟨d, b, convert_units b q, m, sc⟩ :: l, ?_⟩
          simp only [rowBandRecs, hidx, hcell, hl]
        | str s => rw [hcell] at hb2; simp [cellNumOrNull] at hb2

theorem rowRecs_ok (header : List Cell) (ti : Nat) (btf : List String) (m sc : String)
    (row : List Cell) (h : rowCellsOk header btf row = true) :
    ∃ l, rowRecs header ti btf m sc row = .ok l := by
  unfold rowRecs
  cases hdte : rowDate ti row with
  | none => exact ⟨[], rfl⟩
  | some d =>
    obtain ⟨l, hl⟩ := rowBandRecs_ok header row m sc d btf h
    exact ⟨l, hl⟩

theorem allRowRecs_ok (header : List Cell) (ti : Nat) (btf : List String) (m sc : String) :
    ∀ rows : List (List Cell), (∀ row ∈ rows, rowCellsOk header btf row = true) →
      ∃ l, allRowRecs header ti btf m sc rows = .ok l := by
  intro rows
  induction rows with
  | nil => intro _; exact ⟨[], rfl⟩
  | cons r rs ih =>
    intro h
    obtain ⟨ls, hls⟩ := ih (fun x hx => h x (List.mem_cons_of_mem _ hx))
    obtain ⟨l, hl⟩ := rowRecs_ok header ti btf m sc r (h r (List.mem_cons_self _ _))
    refine ⟨l ++ ls, ?_⟩
    unfold allRowRecs
    rw [hl, hls]

theorem fetchRegion_ok (btf : List String) (m sc : String) (arr : List (List Cell))
    (h : ∀ row ∈ arr.tail, rowCellsOk (arr.headD []) btf row = true) :
    ∃ recs, fetchRegion btf m sc (.ok arr) = .ok recs := by
  rw [fetchRegion_unfold]
  by_cases hlen : arr.length < 2
  · exact ⟨[], by rw [if_pos hlen]⟩
  · rw [if_neg hlen]
    cases hti : (arr.headD []).findIdx? (fun c => c == Cell.str "time") with
    | none => exact ⟨[], rfl⟩
    | some ti =>
      obtain ⟨l, hl⟩ := allRowRecs_ok (arr.headD []) ti btf m sc arr.tail h
      exact ⟨l, hl⟩

/-- Claim C4 (amended): the fetcher degrades to the empty table when the
size probe raises or reports zero images, when no requested band is
available, when `getRegion` raises or returns fewer than two entries, or
when the header lacks a `time` column; and no exception escapes provided
every data row carries a null-or-numeric cell at each requested band's
header position.  (As stated the claim is false: a malformed row that is
shorter than the header makes the record loop raise an uncaught
`IndexError` — see the counterexample.) -/
theorem fetch_error_spec (bands : List String) (model scenario : String) (resp : RemoteResponse) :
    (resp.collSize = .error () → fetch_point_timeseries bands model scenario resp = .ok []) ∧
    (resp.collSize = .ok 0 → fetch_point_timeseries bands model scenario resp = .ok []) ∧
    (∀ avail, resp.bandNames = .ok avail →
      (bands.filter (fun b => decide (b ∈ avail))).isEmpty = true →
      fetch_point_timeseries bands model scenario resp = .ok []) ∧
    (resp.region = .error () → fetch_point_timeseries bands model scenario resp = .ok []) ∧
    (∀ arr, resp.region = .ok arr → arr.length < 2 →
      fetch_point_timeseries bands model scenario resp = .ok []) ∧
    (∀ arr, resp.region = .ok arr → Cell.str "time" ∉ arr.headD [] →
      fetch_point_timeseries bands model scenario resp = .ok []) ∧
    (∀ arr, resp.region = .ok arr →
      (∀ row ∈ arr.tail, rowCellsOk (arr.headD []) bands row = true) →
      ∃ recs, fetch_point_timeseries bands model scenario resp = .ok recs) := by
  obtain ⟨cs, bn, rg⟩ := resp
  refine ⟨?_, ?_, ?_, ?_, ?_, ?_, ?_⟩
  · intro h
    cases h
    rfl
  · intro h
    cases h
    rfl
  · intro avail hbn hempty
    cases hbn
    cases cs with
    | error e => rfl
    | ok n =>
      rw [fetch_unfold_ok_okbn]
      by_cases hn : n = 0
      · rw [if_pos hn]
      · rw [if_neg hn, if_pos hempty]
  · intro h
    cases h
    cases cs with
    | error e => rfl
    | ok n =>
      cases bn with
      | error e =>
        rw [fetch_unfold_ok_errbn]
        by_cases hn : n = 0
        · rw [if_pos hn]
        · rw [if_neg hn]
          rfl
      | ok avail =>
        rw [fetch_unfold_ok_okbn]
        by_cases hn : n = 0
        · rw [if_pos hn]
        · rw [if_neg hn]
          by_cases hempty : (bands.filter (fun b => decide (b ∈ avail))).isEmpty
          · rw [if_pos hempty]
          · rw [if_neg hempty]
            rfl
  · intro arr hrg hlen
    cases hrg
    cases cs with
    | error e => rfl
    | ok n =>
      cases bn with
      | error e =>
        rw [fetch_unfold_ok_errbn]
        by_cases hn : n = 0
        · rw [if_pos hn]
        · rw [if_neg hn, fetchRegion_unfold, if_pos hlen]
      | ok avail =>
        rw [fetch_unfold_ok_okbn]
        by_cases hn : n = 0
        · rw [if_pos hn]
        · rw [if_neg hn]
          by_cases hempty : (bands.filter (fun b => decide (b ∈ avail))).isEmpty
          · rw [if_pos hempty]
          · rw [if_neg hempty, fetchRegion_unfold, if_pos hlen]
  · intro arr hrg hmem
    cases hrg
    have hnone : (arr.headD []).findIdx? (fun c => c == Cell.str "time") = none := by
      rw [List.findIdx?_eq_none_iff]
      intro x hx
      have hne : x ≠ Cell.str "time" := fun hcon => hmem (hcon ▸ hx)
      simp [hne]
    cases cs with
    | error e => rfl
    | ok n =>
      cases bn with
      | error e =>
        rw [fetch_unfold_ok_errbn]
        by_cases hn : n = 0
        · rw [if_pos hn]
        · rw [if_neg hn, fetchRegion_unfold]
          by_cases hlen : arr.length < 2
          · rw [if_pos hlen]
          · rw [if_neg hlen, hnone]
      | ok avail =>
        rw [fetch_unfold_ok_okbn]
        by_cases hn : n = 0
        · rw [if_pos hn]
        · rw [if_neg hn]
          by_cases hempty : (bands.filter (fun b => decide (b ∈ avail))).isEmpty
          · rw [if_pos hempty]
          · rw [if_neg hempty, fetchRegion_unfold]
            by_cases hlen : arr.length < 2
            · rw [if_pos hlen]
            · rw [if_neg hlen, hnone]
  · intro arr hrg hok
    cases hrg
    cases cs with
    | error e => exact ⟨[], rfl⟩
    | ok n =>
      cases bn with
      | error e =>
        rw [fetch_unfold_ok_errbn]
        by_cases hn : n = 0
        · exact ⟨[], by rw [if_pos hn]⟩
        · rw [if_neg hn]
          exact fetchRegion_ok bands model scenario arr hok
      | ok avail =>
        rw [fetch_unfold_ok_okbn]
        by_cases hn : n = 0
        · exact ⟨[], by rw [if_pos hn]⟩
        · rw [if_neg hn]
          by_cases hempty : (bands.filter (fun b => decide (b ∈ avail))).isEmpty
          · exact ⟨[], by rw [if_pos hempty]⟩
          · rw [if_neg hempty]
            refine fetchRegion_ok _ model scenario arr ?_
            intro row hrow
            have hall := hok row hrow
            unfold rowCellsOk at hall ⊢
            rw [List.all_eq_true] at hall ⊢
            intro b hb
            exact hall b (List.mem_of_mem_filter hb)

/-- Witness for C4: a raised size probe yields the empty table, and a
well-formed response is processed without an exception. -/
theorem fetch_error_spec_witness :
    fetch_point_timeseries ["tas"] "CanESM5" "historical" ⟨.error (), .error (), .error ()⟩
      = .ok [] ∧
    ∃ recs, fetch_point_timeseries ["tas", "tasmax", "tasmin", "pr", "hurs"] "CanESM5"
      "historical" subsetResp = .ok recs :=
  ⟨(fetch_error_spec ["tas"] "CanESM5" "historical" ⟨.error (), .error (), .error ()⟩).1 rfl,
   (fetch_error_spec ["tas", "tasmax", "tasmin", "pr", "hurs"] "CanESM5" "historical"
      subsetResp).2.2.2.2.2.2 _ rfl (by decide)⟩

/-- Counterexample for C4 as stated: a malformed `getRegion` response whose
data row is shorter than the header makes the record loop raise — the
exception escapes the fetcher instead of degrading to an empty table. -/
theorem fetch_raises_on_short_row :
    fetch_point_timeseries ["pr"] "CanESM5" "historical" shortRowResp = .error () := by
  with_unfolding_all rfl

/-! ### Claim C5 -/

theorem rowBandRecs_mem (header row : List Cell) (m sc d : String) :
    ∀ (bs : List String) (l : List Rec), rowBandRecs header row m sc d bs = .ok l →
      ∀ r ∈ l, r.band ∈ bs ∧ r.model = m ∧ r.scenario = sc ∧ r.date = d := by
  intro bs
  induction bs with
  | nil =>
    intro l hl r hr
    have hl' : (Except.ok [] : Except Unit (List Rec)) = .ok l := hl
    injection hl' with h
    subst h
    simp at hr
  | cons b bs ih =>
    intro l hl r hr
    cases hidx : header.findIdx? (fun c => c == Cell.str b) with
    | none =>
      simp only [rowBandRecs, hidx] at hl
      have h := ih l hl r hr
      exact ⟨List.mem_cons_of_mem _ h.1, h.2⟩
    | some idx =>
      simp only [rowBandRecs, hidx] at hl
      cases hcell : row[idx]? with
      | none => simp [hcell] at hl
      | some cl =>
        cases cl with
        | str s => simp [hcell] at hl
        | null =>
          simp only [hcell] at hl
          have h := ih l hl r hr
          exact ⟨List.mem_cons_of_mem _ h.1, h.2⟩
        | num q =>
          simp only [hcell] at hl
          cases hrec : rowBandRecs header row m sc d bs with
          | error e => simp [hrec] at hl
          | ok rest =>
            simp only [hrec] at hl
            have hl2 : (⟨d, b, convert_units b q, m, sc⟩ : Rec) :: rest = l := by
              injection hl
            subst hl2
            rcases List.mem_cons.mp hr with rfl | hr2
            · exact ⟨List.mem_cons_self _ _, rfl, rfl, rfl⟩
            · have h := ih rest hrec r hr2
              exact ⟨List.mem_cons_of_mem _ h.1, h.2⟩

theorem allRowRecs_mem (header : List Cell) (ti : Nat) (btf : List String) (m sc : String) :
    ∀ (rows : List (List Cell)) (recs : List Rec),
      allRowRecs header ti btf m sc rows = .ok recs →
      ∀ r ∈ recs, r.band ∈ btf ∧ r.model = m ∧ r.scenario = sc := by
  intro rows
  induction rows with
  | nil =>
    intro recs h r hr
    have h' : (Except.ok [] : Except Unit (List Rec)) = .ok recs := h
    injection h' with h2
    subst h2
    simp at hr
  | cons row rs ih =>
    intro recs h r hr
    cases hrow : rowRecs header ti btf m sc row with
    | error e => simp [allRowRecs, hrow] at h
    | ok l =>
      simp only [allRowRecs, hrow] at h
      cases hrs : allRowRecs header ti btf m sc rs with
      | error e => simp [hrs] at h
      | ok ls =>
        simp only [hrs] at h
        have h2 : l ++ ls = recs := by injection h
        subst h2
        rcases List.mem_append.mp hr with hr1 | hr2
        · unfold rowRecs at hrow
          cases hdte : rowDate ti row with
          | none =>
            rw [hdte] at hrow
            have hrow' : (Except.ok [] : Except Unit (List Rec)) = .ok l := hrow
            injection hrow' with h3
            subst h3
            simp at hr1
          | some dstr =>
            rw [hdte] at hrow
            have hrow' : rowBandRecs header row m sc dstr btf = .ok l := hrow
            have h := rowBandRecs_mem header row m sc dstr btf l hrow' r hr1
            exact ⟨h.1, h.2.1, h.2.2.1⟩
        · exact ih ls hrs r hr2

theorem rowBandRecs_countP (header row : List Cell) (m sc dstr d b : String) (v : ℚ) :
    ∀ (bs : List String) (l : List Rec), bs.Nodup →
      rowBandRecs header row m sc dstr bs = .ok l →
      l.countP (fun r => r == (⟨d, b, v, m, sc⟩ : Rec)) =
        if b ∈ bs ∧ dstr = d then
          match header.findIdx? (fun c => c == Cell.str b) with
          | some j => if cellMatch b v row[j]? then 1 else 0
          | none => 0
        else 0 := by
  intro bs
  induction bs with
  | nil =>
    intro l _ hl
    have hl' : (Except.ok [] : Except Unit (List Rec)) = .ok l := hl
    injection hl' with h
    subst h
    simp
  | cons b' bs ih =>
    intro l hnd hl
    have hnotmem : b' ∉ bs := (List.nodup_cons.mp hnd).1
    have hnd' : bs.Nodup := (List.nodup_cons.mp hnd).2
    cases hidx : header.findIdx? (fun c => c == Cell.str b') with
    | none =>
      simp only [rowBandRecs, hidx] at hl
      rw [ih l hnd' hl]
      by_cases hb : b = b'
      · subst hb
        rw [hidx]
        simp [hnotmem]
      · simp [List.mem_cons, hb]
    | some idx =>
      simp only [rowBandRecs, hidx] at hl
      cases hcell : row[idx]? with
      | none => simp [hcell] at hl
      | some cl =>
        cases cl with
        | str s => simp [hcell] at hl
        | null =>
          simp only [hcell] at hl
          rw [ih l hnd' hl]
          by_cases hb : b = b'
          · subst hb
            simp [hidx, hcell, cellMatch, hnotmem]
          · simp [List.mem_cons, hb]
        | num q =>
          simp only [hcell] at hl
          cases hrec : rowBandRecs header row m sc dstr bs with
          | error e => simp [hrec] at hl
          | ok rest =>
            simp only [hrec] at hl
            have hl2 : (⟨dstr, b', convert_units b' q, m, sc⟩ : Rec) :: rest = l := by
              injection hl
            subst hl2
            rw [List.countP_cons]
            rw [ih rest hnd' hrec]
            by_cases hb : b = b'
            · subst hb
              by_cases hd : dstr = d
              · subst hd
                by_cases hv : convert_units b q = v
                · simp [hidx, hcell, cellMatch, hnotmem, hv, Rec.mk.injEq]
                · simp [hidx, hcell, cellMatch, hnotmem, hv, Rec.mk.injEq]
              · simp [hidx, hcell, cellMatch, hnotmem, hd, Rec.mk.injEq]
            · have hb' : b' ≠ b := Ne.symm hb
              simp [List.mem_cons, hb, hb', Rec.mk.injEq]

theorem allRowRecs_countP (header : List Cell) (ti : Nat) (btf : List String) (m sc : String)
    (d b : String) (v : ℚ) :
    ∀ (rows : List (List Cell)) (recs : List Rec), btf.Nodup →
      allRowRecs header ti btf m sc rows = .ok recs →
      recs.countP (fun r => r == (⟨d, b, v, m, sc⟩ : Rec)) =
        if b ∈ btf then
          match header.findIdx? (fun c => c == Cell.str b) with
          | some j => rows.countP (fun row =>
              rowDate ti row == some d && cellMatch b v row[j]?)
          | none => 0
        else 0 := by
  intro rows
  induction rows with
  | nil =>
    intro recs _ h
    have h' : (Except.ok [] : Except Unit (List Rec)) = .ok recs := h
    injection h' with h2
    subst h2
    by_cases hb : b ∈ btf
    · cases hidx : header.findIdx? (fun c => c == Cell.str b) with
      | none => simp [hb, hidx]
      | some j => simp [hb, hidx]
    · simp [hb]
  | cons row rs ih =>
    intro recs hnd h
    cases hrow : rowRecs header ti btf m sc row with
    | error e => simp [allRowRecs, hrow] at h
    | ok l =>
      simp only [allRowRecs, hrow] at h
      cases hrs : allRowRecs header ti btf m sc rs with
      | error e => simp [hrs] at h
      | ok ls =>
        simp only [hrs] at h
        have h2 : l ++ ls = recs := by injection h
        subst h2
        rw [List.countP_append]
        rw [ih ls hnd hrs]
        unfold rowRecs at hrow
        cases hdte : rowDate ti row with
        | none =>
          rw [hdte] at hrow
          have hrow' : (Except.ok [] : Except Unit (List Rec)) = .ok l := hrow
          injection hrow' with h3
          subst h3
          by_cases hb : b ∈ btf
          · cases hidx : header.findIdx? (fun c => c == Cell.str b) with
            | none => simp [hb, hidx]
            | some j => simp [hb, hidx, List.countP_cons, hdte]
          · simp [hb]
        | some dstr =>
          rw [hdte] at hrow
          have hrow' : rowBandRecs header row m sc dstr btf = .ok l := hrow
          rw [rowBandRecs_countP header row m sc dstr d b v btf l hnd hrow']
          by_cases hb : b ∈ btf
          · cases hidx : header.findIdx? (fun c => c == Cell.str b) with
            | none => simp [hb, hidx]
            | some j =>
              by_cases hd : dstr = d
              · subst hd
                by_cases hcm : cellMatch b v row[j]? = true
                · simp [hb, hidx, hcm, List.countP_cons, hdte]
                  exact Nat.add_comm 1 _
                · simp [hb, hidx, hcm, List.countP_cons, hdte]
              · simp [hb, hidx, hd, List.countP_cons, hdte, Ne.symm hd]
          · simp [hb]

/-- Claim C5: on a successful fetch with the band listing available, the
fetcher silently restricts the requested bands to the available subset —
every emitted record carries a requested and available band and the given
model and scenario — and it emits exactly one record per data row and
available band whose cell is a non-null number (null cells are dropped,
not imputed), with the value run through the unit converter; stated as an
exact record count against the response rows. -/
theorem fetch_subset_records (bands avail : List String) (model scenario : String)
    (resp : RemoteResponse) (n : Nat) (arr : List (List Cell)) (time_idx : Nat)
    (recs : List Rec)
    (hcs : resp.collSize = .ok n) (hn0 : n ≠ 0)
    (hbn : resp.bandNames = .ok avail)
    (hrg : resp.region = .ok arr) (hlen : ¬ arr.length < 2)
    (hti : (arr.headD []).findIdx? (fun c => c == Cell.str "time") = some time_idx)
    (hnodup : bands.Nodup)
    (hok : fetch_point_timeseries bands model scenario resp = .ok recs) :
    (∀ r ∈ recs, r.band ∈ bands ∧ r.band ∈ avail ∧ r.model = model ∧ r.scenario = scenario) ∧
    (∀ (d b : String) (v : ℚ),
      recs.countP (fun r => r == (⟨d, b, v, model, scenario⟩ : Rec)) =
        if b ∈ bands ∧ b ∈ avail then
          match (arr.headD []).findIdx? (fun c => c == Cell.str b) with
          | some j => arr.tail.countP (fun row =>
              rowDate time_idx row == some d && cellMatch b v row[j]?)
          | none => 0
        else 0) := by
  obtain ⟨cs, bn, rg⟩ := resp
  have hcs' : cs = .ok n := hcs
  have hbn' : bn = .ok avail := hbn
  have hrg' : rg = .ok arr := hrg
  subst hcs'
  subst hbn'
  subst hrg'
  rw [fetch_unfold_ok_okbn, if_neg hn0] at hok
  have hfiltmem : ∀ x, x ∈ bands.filter (fun b => decide (b ∈ avail)) ↔
      x ∈ bands ∧ x ∈ avail := by
    intro x
    simp [List.mem_filter]
  by_cases hempty : (bands.filter (fun b => decide (b ∈ avail))).isEmpty
  · rw [if_pos hempty] at hok
    have hrecs : ([] : List Rec) = recs := by injection hok
    subst hrecs
    refine ⟨by simp, ?_⟩
    intro d b v
    have hcond : ¬ (b ∈ bands ∧ b ∈ avail) := by
      intro hcon
      have : b ∈ bands.filter (fun b => decide (b ∈ avail)) := (hfiltmem b).mpr hcon
      rw [List.isEmpty_iff] at hempty
      rw [hempty] at this
      simp at this
    simp [hcond]
  · rw [if_neg hempty, fetchRegion_unfold, if_neg hlen, hti] at hok
    constructor
    · intro r hr
      have h := allRowRecs_mem (arr.headD []) time_idx _ model scenario arr.tail recs hok r hr
      have hmemf := (hfiltmem r.band).mp h.1
      exact ⟨hmemf.1, hmemf.2, h.2.1, h.2.2⟩
    · intro d b v
      rw [allRowRecs_countP (arr.headD []) time_idx _ model scenario d b v arr.tail recs
        (hnodup.filter _) hok]
      rw [if_congr (hfiltmem b) rfl rfl]

/-- Witness for C5: requesting five bands when three are available yields
a table covering the available bands — here checked on the emitted `pr`
record of a concrete response. -/
theorem fetch_subset_records_witness :
    (⟨"1970-01-01", "pr", 172800, "CanESM5", "historical"⟩ : Rec).band
        ∈ ["tas", "tasmax", "tasmin", "pr", "hurs"]
      ∧ (⟨"1970-01-01", "pr", 172800, "CanESM5", "historical"⟩ : Rec).band
        ∈ ["tas", "tasmax", "pr"]
      ∧ (⟨"1970-01-01", "pr", 172800, "CanESM5", "historical"⟩ : Rec).model = "CanESM5"
      ∧ (⟨"1970-01-01", "pr", 172800, "CanESM5", "historical"⟩ : Rec).scenario = "historical" :=
  (fetch_subset_records ["tas", "tasmax", "tasmin", "pr", "hurs"] ["tas", "tasmax", "pr"]
    "CanESM5" "historical" subsetResp 1
    [[Cell.str "time", Cell.str "tas", Cell.str "tasmax", Cell.str "pr"],
     [Cell.num 0, Cell.num 280, Cell.num 290, Cell.num 2]] 0
    [⟨"1970-01-01", "tas", 6.85, "CanESM5", "historical"⟩,
     ⟨"1970-01-01", "tasmax", 16.85, "CanESM5", "historical"⟩,
     ⟨"1970-01-01", "pr", 172800, "CanESM5", "historical"⟩]
    rfl (by decide) rfl rfl (by decide) (by with_unfolding_all rfl) (by decide)
    (by with_unfolding_all rfl)).1
    ⟨"1970-01-01", "pr", 172800, "CanESM5", "historical"⟩ (by decide)
